import Mathlib

/-!
Verification development for the DSuper8 capture server
(src/Server/DS8Server.py, version 20230430).

The Python source is shallowly embedded below.  Pure arithmetic
(`bracketSS`) becomes a function over the integers/reals; the stateful
session code (`processCmd`, `newImage`, `takeAndQueuePhoto`,
`calcExpParmsAE`, the `sendXX` helpers) becomes explicit state passing
over a `ServerState` record; the unbounded autoexposure loops take a
fuel parameter and return a result that distinguishes normal return,
a raised Python exception, and divergence; the connection-lock
discipline is modelled by an interleaving small-step semantics over
per-thread event programs.

Parts of the repository that `DS8Server.py` imports but that are not
under `src/` (`codes.py`, `camera.py`, `controlProcess.py`,
`config.py`) are modelled from the specification; every such
definition carries a doc comment saying so.
-/

namespace DS8

/-- Python exceptions that the embedded code paths can raise. -/
inductive PyExn where
  | valueError
  | indexError
  | zeroDivisionError
  | unboundLocalError
deriving DecidableEq

/-- Result of running an embedded Python fragment: a normal return, a
raised exception, or divergence (`hang`: a loop that does not exit
within the supplied fuel, or a blocking wait that nothing in the
sequential model can unblock). -/
inductive PyRes (α : Type) where
  | ok (a : α)
  | exn (e : PyExn)
  | hang
deriving DecidableEq

/-- Sequencing of embedded Python fragments: exceptions and divergence
propagate. -/
def PyRes.bind {α β : Type} : PyRes α → (α → PyRes β) → PyRes β
  | .ok a, f => f a
  | .exn e, _ => .exn e
  | .hang, _ => .hang

/-- Numeric value of a list of decimal digit characters. -/
def digitsVal (ds : List Char) : ℤ :=
  ds.foldl (fun a c => a * 10 + ((c.toNat : ℤ) - 48)) 0

/-- Embedding of Python `int(s)` on the argument strings the server
receives: optional surrounding spaces, an optional sign, then a
nonempty run of decimal digits; anything else raises `ValueError`
(returned as `none` here). -/
def pyInt (cs : List Char) : Option ℤ :=
  let cs := cs.dropWhile (fun c => c = ' ')
  let cs := (cs.reverse.dropWhile (fun c => c = ' ')).reverse
  match cs with
  | '-' :: ds =>
      if ds ≠ [] ∧ ds.all Char.isDigit then some (-(digitsVal ds)) else none
  | '+' :: ds =>
      if ds ≠ [] ∧ ds.all Char.isDigit then some (digitsVal ds) else none
  | ds =>
      if ds ≠ [] ∧ ds.all Char.isDigit then some (digitsVal ds) else none

/-- Fractional value of the digits after a decimal point. -/
def fracVal (ds : List Char) : ℚ :=
  (digitsVal ds : ℚ) / (10 ^ ds.length)

/-- Embedding of Python `float(s)` on the argument strings the server
receives: optional surrounding spaces, an optional sign, digits with an
optional decimal point (`"1"`, `"1."`, `".5"`, `"1.5"`); at least one
digit is required.  The value is kept exact as a rational. -/
def pyFloatCore (cs : List Char) : Option ℚ :=
  let intPart := cs.takeWhile Char.isDigit
  let rest := cs.dropWhile Char.isDigit
  match rest with
  | [] => if intPart ≠ [] then some (digitsVal intPart : ℚ) else none
  | '.' :: frac =>
      if frac.all Char.isDigit ∧ (intPart ≠ [] ∨ frac ≠ []) then
        some ((digitsVal intPart : ℚ) + fracVal frac)
      else none
  | _ => none

/-- Embedding of Python `float(s)`; see `pyFloatCore`. -/
def pyFloat (cs : List Char) : Option ℚ :=
  let cs := cs.dropWhile (fun c => c = ' ')
  let cs := (cs.reverse.dropWhile (fun c => c = ' ')).reverse
  match cs with
  | '-' :: ds => (pyFloatCore ds).map (fun q => -q)
  | '+' :: ds => pyFloatCore ds
  | ds => pyFloatCore ds

/-- Python `int(x)` on a rational: truncation toward zero. -/
def pyTruncQ (q : ℚ) : ℤ :=
  if 0 ≤ q then ⌊q⌋ else -⌊-q⌋

/-- Round half to even on a rational (the rounding Python's `round`
uses; the binary-float representation error of CPython floats is
abstracted away). -/
def roundHalfEven (q : ℚ) : ℤ :=
  let f := ⌊q⌋
  let r := q - f
  if r < 1 / 2 then f
  else if 1 / 2 < r then f + 1
  else if f % 2 = 0 then f else f + 1

/-- Embedding of Python `round(x, d)`. -/
def roundPy (q : ℚ) (d : ℕ) : ℚ :=
  (roundHalfEven (q * 10 ^ d) : ℚ) / 10 ^ d

/-- One item written to the outbound binary image/telemetry channel.
`i32`/`u32` stand for `pack("<l", ·)` / `pack("<i", ·)` / `pack("<L", ·)`
(4-byte little-endian integers), `f32` for `pack("<f", ·)` (4-byte
little-endian float, value kept as the exact rational being encoded),
`imgBytes n` for the raw image payload of `n` bytes, and `flushW` for a
`flush()` call on the connection. -/
inductive WireItem where
  | flagB (c : Char)
  | i32 (n : ℤ)
  | u32 (n : ℕ)
  | f32 (q : ℚ)
  | imgBytes (size : ℕ)
  | flushW
deriving DecidableEq

/-- One order placed on the motor queue for the transport/lighting
process.  Modelled from the spec: `DS8Control` and `MotorDriver` live
in `controlProcess.py`, which is not under `src/`; the spec describes
the orders as {direction, frame-count} or {wake/sleep, light on/off}
plus continuous run and stop. -/
inductive MotorOrder where
  | fwd (frames : ℤ)
  | rev (frames : ℤ)
  | contFwd
  | contRev
  | stop
  | wake
  | sleepMotor
  | lampOn
  | lampOff
deriving DecidableEq

/-- Camera mode, per the session data model. -/
inductive Mode where
  | off
  | previewing
  | capturing
deriving DecidableEq

/-- One metadata record returned by `picam2` / `captureMetadata()`. -/
structure Meta where
  exposureTime : ℤ
  analogueGain : ℚ
  digitalGain : ℚ
  frameDuration : ℚ
  colourGainRed : ℚ
  colourGainBlue : ℚ
deriving DecidableEq

/-- The camera-side state touched by `DS8Server`.  The `DS8Camera`
class itself lives in `camera.py`, which is not under `src/`; the
fields below record exactly the attributes the server reads and
writes (`self.cam.…` and `self.cam.picam2.controls.…`), modelled from
the spec where the camera's own behaviour matters.  `minExpTime` and
`maxExpTime` are the camera's exposure bounds used by `bracketSS`. -/
structure CamState where
  mode : Mode
  zoom : ℤ
  roiX : ℤ
  roiY : ℤ
  autoExp : Bool
  aeEnable : Bool
  ManExposureTime : ℤ
  AeExposureTime : ℤ
  exposureTime : ℤ
  controlsExposureTime : ℤ
  bracketing : ℤ
  stops : ℚ
  awb : Bool
  awbModeIdx : ℤ
  analogueGainCtrl : ℚ
  exposureValue : ℚ
  gainBlue : ℚ
  gainRed : ℚ
  brightness : ℚ
  contrast : ℚ
  saturation : ℚ
  sharpness : ℚ
  vflip : Bool
  hflip : Bool
  constraintModeIdx : ℤ
  exposureModeIdx : ℤ
  meteringModeIdx : ℤ
  sizeIdx : ℤ
  minExpTime : ℤ
  maxExpTime : ℤ
  frameRate : ℚ
  quality : ℤ

/-- The whole session state of `DS8Server`, plus the observable
effects of a run (wire writes, queued image frames, motor orders, log
lines) and the camera-metadata oracle.  `metaAt` is the stream of
metadata records the hardware would report; `cursor` is the index of
the next unread record — each embedded `captureMetadata()` call reads
one record and advances the cursor.  `frames` records, in order, the
pool-slot assignments `(role flag, exposure time)` made by
`takeAndQueuePhoto` (each of which the assigned worker later writes to
the wire).  `pool` is the number of idle transmit workers; the
asynchronous return of a worker to the pool after its send is outside
this sequential embedding, so `pool` only decreases here.
`numOfRetries` and `timeExpTolerance` mirror `config.numOfRetries` and
`config.timeExpTolerance` (`config.py` is not under `src/`, so they
stay symbolic). -/
structure ServerState where
  imgcount : ℕ
  baseExpTime : ℤ
  autoAdvance : Bool
  svUpdateFrame : ℕ
  svSendStop : ℕ
  capEvent : Bool
  mainExit : Bool
  light : Bool
  cam : CamState
  pool : ℕ
  motorOrders : List MotorOrder
  wire : List WireItem
  frames : List (Char × ℤ)
  logs : ℕ
  metaAt : ℕ → Meta
  cursor : ℕ
  numOfRetries : ℕ
  timeExpTolerance : ℤ

/-- `self.cam.captureMetadata()`: read the next metadata record from
the oracle stream. -/
def captureMetadata (s : ServerState) : Meta × ServerState :=
  (s.metaAt s.cursor, { s with cursor := s.cursor + 1 })

/-- Write one log line (`info(...)`). -/
def logLine (s : ServerState) : ServerState :=
  { s with logs := s.logs + 1 }

/-- Set `self.cam.picam2.controls.ExposureTime`. -/
def setCtrlExp (s : ServerState) (t : ℤ) : ServerState :=
  { s with cam := { s.cam with controlsExposureTime := t } }

/-- The frame rate computed by `sendSS`: `1e+6 / FrameDuration`. -/
def frameRateOf (m : Meta) : ℚ :=
  1000000 / m.frameDuration

/-- The exact sequence of writes `sendSS` performs on the outbound
channel while holding the connection lock: the flag byte, the int32 LE
exposure time, the float32 LE analogue gain, the float32 LE digital
gain, the float32 LE frame rate, then a flush. -/
def sendSSItems (c : Char) (m : Meta) : List WireItem :=
  [.flagB c, .i32 m.exposureTime, .f32 (roundPy m.analogueGain 2),
   .f32 (roundPy m.digitalGain 2), .f32 (roundPy (frameRateOf m) 1), .flushW]

/-- `DS8Server.sendSS`: read metadata (one oracle read, advancing the
cursor), compute the frame rate (a `ZeroDivisionError` if the
reported frame duration is zero), then write the exposure-telemetry
record under the connection lock. -/
def sendSS (c : Char) (s : ServerState) : PyRes ServerState :=
  if (s.metaAt s.cursor).frameDuration = 0 then .exn .zeroDivisionError
  else .ok { s with
    cam := { s.cam with frameRate := frameRateOf (s.metaAt s.cursor) },
    wire := s.wire ++ sendSSItems c (s.metaAt s.cursor),
    cursor := s.cursor + 1 }

/-- The writes `sendGains` performs under the connection lock. -/
def sendGainsItems (m : Meta) : List WireItem :=
  [.flagB 'g', .f32 m.colourGainBlue, .f32 m.colourGainRed, .flushW]

/-- `DS8Server.sendGains`: read metadata, write the colour-gain record
under the connection lock, log the gains. -/
def sendGains (s : ServerState) : ServerState :=
  let p := captureMetadata s
  logLine { p.2 with wire := p.2.wire ++ sendGainsItems p.1 }

/-- `DS8Server.sendLightOn`: write the light-on notice byte. -/
def sendLightOnW (s : ServerState) : ServerState :=
  { s with wire := s.wire ++ [.flagB 'l', .flushW] }

/-- `DS8Server.sendLightOff`: write the light-off notice byte. -/
def sendLightOffW (s : ServerState) : ServerState :=
  { s with wire := s.wire ++ [.flagB 'L', .flushW] }

/-- `DS8Server.exposureInfo`: reads metadata for the log string; the
only state effect is advancing the metadata cursor. -/
def exposureInfo (s : ServerState) : ServerState :=
  (captureMetadata s).2

/-- Python `int(x)` on a real (the value of a CPython float expression,
with the binary representation error abstracted away): truncation
toward zero. -/
noncomputable def pyTruncR (x : ℝ) : ℤ :=
  if 0 ≤ x then ⌊x⌋ else -⌊-x⌋

/-- First clamping step of `bracketSS`: `if exposureTime > maxExpTime:
exposureTime = maxExpTime`. -/
def clampHi (v maxE : ℤ) : ℤ := if maxE < v then maxE else v

/-- The clamping done at the end of `bracketSS`, exactly as in the
source: first `if exposureTime > maxExpTime`, then
`if exposureTime < minExpTime`. -/
def clampI (v minE maxE : ℤ) : ℤ :=
  if clampHi v maxE < minE then minE else clampHi v maxE

/-- `DS8Server.bracketSS(stops, shot, bkt, ss)`: the bracket-exposure
calculator.  `minE`/`maxE` stand for `self.cam.minExpTime` /
`self.cam.maxExpTime`.  For `bkt = 1` the base exposure `ss` is
returned unchanged (without clamping); otherwise
`adj = (shot-1)/(bkt-1)*2 - 1` and the result is
`int(ss * 2**(adj*stops/2))` clamped into `[minE, maxE]`. -/
noncomputable def bracketSS (stops : ℚ) (shot bkt ss minE maxE : ℤ) : ℤ :=
  if bkt = 1 then ss
  else
    let adj : ℝ := ((shot : ℝ) - 1) / ((bkt : ℝ) - 1) * 2 - 1
    clampI (pyTruncR ((ss : ℝ) * (2 : ℝ) ^ (adj * (stops : ℝ) / 2))) minE maxE

/-- The bracket-exposure formula exactly as the claim/spec words it
(`exposure = baseExposure * 2^(offset * stops / 2)` with
`offset = (shotIndex-1)/(shotCount-1)*2 - 1`), with no integer
truncation.  Used to compare the claim's wording against `bracketSS`. -/
noncomputable def specBracketExpR (stops : ℚ) (shot bkt ss : ℤ) : ℝ :=
  (ss : ℝ) * (2 : ℝ) ^ ((((shot : ℝ) - 1) / ((bkt : ℝ) - 1) * 2 - 1) * (stops : ℝ) / 2)

/-- Real-valued analogue of `clampHi`. -/
noncomputable def clampHiR (v maxE : ℝ) : ℝ := if maxE < v then maxE else v

/-- Real-valued clamp, for stating the claim's "clamped to
[minExposure, maxExposure]" over the untruncated formula. -/
noncomputable def clampR (v minE maxE : ℝ) : ℝ :=
  if clampHiR v maxE < minE then minE else clampHiR v maxE

/-! ### Autoexposure convergence (`DS8Server.calcExpParmsAE`)

The outer `while True` loop and the inner stabilization loop of the
source are unbounded; both take a fuel parameter here and report
`hang` when it runs out.  Each `self.cam.captureMetadata()` call in
the source is a separate read of the metadata oracle — including the
three reads inside one decision (lines 555, 559, 567), which this
embedding keeps separate, exactly as the source does. -/

/-- Set `self.cam.AeExposureTime` (and nothing else). -/
def setAeTime (s : ServerState) (t : ℤ) : ServerState :=
  { s with cam := { s.cam with AeExposureTime := t } }

/-- Inner stabilization loop of `calcExpParmsAE`:
`while abs(captureMetadata().ExposureTime - AeExposureTime) > tolerance:
capture_file(nullFile)`.  Each condition check reads one metadata
record; the throw-away capture itself changes no modelled state.
`none` means the loop did not exit within the fuel. -/
def aeStab : ℕ → ServerState → Option ServerState
  | 0, s =>
    if |(s.metaAt s.cursor).exposureTime - s.cam.AeExposureTime|
        ≤ s.timeExpTolerance then
      some { s with cursor := s.cursor + 1 }
    else none
  | fuel + 1, s =>
    if |(s.metaAt s.cursor).exposureTime - s.cam.AeExposureTime|
        ≤ s.timeExpTolerance then
      some { s with cursor := s.cursor + 1 }
    else aeStab fuel { s with cursor := s.cursor + 1 }

/-- Outcome of one iteration of the outer autoexposure loop. -/
inductive AEIterOut where
  | accepted (s : ServerState)
  | next (adjust1 adjust2 : Bool) (s : ServerState)
  | stuckInner

/-- Discriminator for `AEIterOut.accepted` (used to state closed facts
about iterations without binders). -/
def AEIterOut.isAccepted : AEIterOut → Bool
  | .accepted _ => true
  | _ => false

/-- The decision part of one outer-loop iteration of
`calcExpParmsAE`, after the inner stabilization has settled: break if
the (freshly read) analogue gain is 1 and `adjust2` is set; else if
the (again freshly read) gain is 1, decrease the exposure time by 500
and set `adjust1`; else if the (third read) gain exceeds 1, increase
by 500 and set `adjust2` when `adjust1` was already set.  Each gain
comparison is its own fresh metadata read, as in the source. -/
def aeDecide (adjust1 adjust2 : Bool) (t : ServerState) : AEIterOut :=
  if (t.metaAt t.cursor).analogueGain = 1 ∧ adjust2 = true then
    .accepted { t with cursor := t.cursor + 1 }
  else if (t.metaAt (t.cursor + 1)).analogueGain = 1 then
    .next true adjust2
      (setCtrlExp (setAeTime { t with cursor := t.cursor + 2 }
        (t.cam.AeExposureTime - 500)) (t.cam.AeExposureTime - 500))
  else if 1 < (t.metaAt (t.cursor + 2)).analogueGain then
    .next adjust1 (adjust2 || adjust1)
      (setCtrlExp (setAeTime { t with cursor := t.cursor + 3 }
        (t.cam.AeExposureTime + 500)) (t.cam.AeExposureTime + 500))
  else
    .next adjust1 adjust2 { t with cursor := t.cursor + 3 }

/-- One iteration of the outer `while True` loop of `calcExpParmsAE`:
run the inner stabilization loop, then the decision. -/
def aeIter (stabFuel : ℕ) (adjust1 adjust2 : Bool) (s : ServerState) : AEIterOut :=
  match aeStab stabFuel s with
  | none => .stuckInner
  | some t => aeDecide adjust1 adjust2 t

/-- The outer `while True` loop of `calcExpParmsAE`, with fuel. -/
def aeLoop : ℕ → Bool → Bool → ServerState → PyRes ServerState
  | 0, _, _, _ => .hang
  | fuel + 1, adjust1, adjust2, s =>
    match aeIter (fuel + 1) adjust1 adjust2 s with
    | .accepted s => .ok s
    | .next a1 a2 s => aeLoop fuel a1 a2 s
    | .stuckInner => .hang

/-- The preamble of `calcExpParmsAE`: seed the exposure control and
`AeExposureTime` from `baseExpTime`, enable automatic gain, set the
autoexposure jpeg quality, take one throw-away exposure (no modelled
effect), and re-seed `AeExposureTime`. -/
def calcPre (s : ServerState) : ServerState :=
  let s := setCtrlExp s s.baseExpTime
  let s := setAeTime s s.baseExpTime
  let s := { s with cam := { s.cam with aeEnable := true } }
  let s := { s with cam := { s.cam with quality := 30 } }
  setAeTime s s.baseExpTime

/-- The epilogue of `calcExpParmsAE` after the loop accepts: persist
the accepted exposure as the new `baseExpTime`, log it (one metadata
read), and disable automatic gain. -/
def calcPost (s : ServerState) : ServerState :=
  let s := { s with baseExpTime := s.cam.AeExposureTime }
  let s := logLine (captureMetadata s).2
  { s with cam := { s.cam with aeEnable := false } }

/-- `DS8Server.calcExpParmsAE`: preamble, convergence loop, epilogue. -/
def calcExpParmsAE (fuel : ℕ) (s : ServerState) : PyRes ServerState :=
  (aeLoop fuel false false (calcPre s)).bind fun v => .ok (calcPost v)

/-! ### Capture (`DS8Server.takeAndQueuePhoto`, `DS8Server.newImage`)

`newImage` calls `bracketSS`, whose value feeds only the camera's
exposure control; since the real-number power in `bracketSS` is not
computable, the capture path is parameterized over the bracket
function (`bracketSS` itself is the intended instantiation, proved
about separately), which keeps the rest of the model executable. -/

/-- `DS8Server.takeAndQueuePhoto(imgflag)`: choose the jpeg quality
from the mode (`UnboundLocalError` if the mode is neither previewing
nor capturing), pop an idle pool worker (the sequential model cannot
unblock the wait when none is idle, so that case is `hang`), capture
into the worker's buffer, send the colour gains when `self.cam.awb`
is set, read the exposure time from metadata, and wake the worker —
recorded as a queued frame `(imgflag, exposure time)`. -/
def takeAndQueuePhoto (imgflag : Char) (s : ServerState) : PyRes ServerState :=
  match s.cam.mode with
  | .off => .exn .unboundLocalError
  | m =>
    let q : ℤ := if m = .capturing then 97 else 60
    let s := { s with cam := { s.cam with quality := q } }
    if s.pool = 0 then .hang
    else
      let s := { s with pool := s.pool - 1 }
      let s := if s.cam.awb then sendGains s else s
      let p := captureMetadata s
      .ok { p.2 with frames := p.2.frames ++ [(imgflag, p.1.exposureTime)] }

/-- The per-shot retry loop in the capturing branch of `newImage`:
`for i in range(numOfRetries)`, each iteration reading one metadata
record and breaking once the reported exposure time is within
`timeExpTolerance` of the requested one.  Only the metadata cursor
changes. -/
def retryLoop : ℕ → ℤ → ServerState → ServerState
  | 0, _, s => s
  | n + 1, target, s =>
    if |target - (s.metaAt s.cursor).exposureTime| ≤ s.timeExpTolerance then
      { s with cursor := s.cursor + 1 }
    else retryLoop n target { s with cursor := s.cursor + 1 }

/-- The role flag for shot number `shot` of a `bracketing`-shot burst:
`"s"` for a single shot, `"a"` for an intermediate bracketing shot,
`"b"` for the last bracketing shot. -/
def shotFlag (bracketing shot : ℤ) : Char :=
  if bracketing = 1 then 's' else if shot < bracketing then 'a' else 'b'

/-- Body of one iteration of the `for shot in range(1, bracketing+1)`
loop of `newImage`: compute the bracket exposure, program it, run the
retry loop, send the exposure telemetry with flag `"f"`, wait for a
free pool worker (a `hang` when none is idle, as nothing in the
sequential model frees one), then take and queue the photo and log. -/
def shotBody (bracketFn : ℚ → ℤ → ℤ → ℤ → ℤ → ℤ → ℤ) (shot : ℤ)
    (s : ServerState) : PyRes ServerState :=
  (sendSS 'f'
    (retryLoop s.numOfRetries
      (bracketFn s.cam.stops shot s.cam.bracketing s.cam.exposureTime
        s.cam.minExpTime s.cam.maxExpTime)
      (setCtrlExp s
        (bracketFn s.cam.stops shot s.cam.bracketing s.cam.exposureTime
          s.cam.minExpTime s.cam.maxExpTime)))).bind fun t =>
    if t.pool = 0 then .hang
    else
      (takeAndQueuePhoto (shotFlag t.cam.bracketing shot) t).bind fun u =>
        .ok (logLine (exposureInfo u))

/-- The `for shot in range(1, bracketing+1)` loop of `newImage`,
iterating `shotBody` for `shot = first, first+1, …` while `count`
shots remain. -/
def shotLoop (bracketFn : ℚ → ℤ → ℤ → ℤ → ℤ → ℤ → ℤ) :
    ℕ → ℤ → ServerState → PyRes ServerState
  | 0, _, s => .ok s
  | count + 1, first, s =>
    (shotBody bracketFn first s).bind fun s =>
      shotLoop bracketFn count (first + 1) s

/-- The previewing branch of `newImage`: program the manual exposure,
take a `'p'`-flagged image, send `'e'` telemetry when autoexposure is
on, and log the preview (one metadata read via `exposureInfo`). -/
def newImagePreview (s : ServerState) : PyRes ServerState :=
  (takeAndQueuePhoto 'p' (setCtrlExp s s.cam.ManExposureTime)).bind fun t =>
    (if t.cam.autoExp then sendSS 'e' t else .ok t).bind fun u =>
      .ok (logLine (exposureInfo u))

/-- The capturing branch of `newImage`: settle `exposureTime` (the
autoexposure convergence result followed by `'e'` telemetry when
`autoExp`, else the manual time), program it, wait for the motor-busy
flag to clear (a set flag hangs the sequential model), run the bracket
loop for shots `1..bracketing`, and finally enqueue one
forward-one-frame order when `autoAdvance` is set. -/
def newImageCapture (bracketFn : ℚ → ℤ → ℤ → ℤ → ℤ → ℤ → ℤ) (fuel : ℕ)
    (s : ServerState) : PyRes ServerState :=
  (if s.cam.autoExp then
     (calcExpParmsAE fuel s).bind fun v =>
       sendSS 'e' { v with cam := { v.cam with exposureTime := v.cam.AeExposureTime } }
   else
     .ok { s with cam := { s.cam with exposureTime := s.cam.ManExposureTime } }).bind
    fun t =>
      if (setCtrlExp t t.cam.exposureTime).capEvent then .hang
      else
        (shotLoop bracketFn
          (max 0 (setCtrlExp t t.cam.exposureTime).cam.bracketing).toNat 1
          (setCtrlExp t t.cam.exposureTime)).bind fun u =>
          if u.autoAdvance then
            .ok { u with motorOrders := u.motorOrders ++ [.fwd 1] }
          else .ok u

/-- `DS8Server.newImage`: the capture entry point, branching on the
camera mode (`off`: neither branch runs).  In every case that
returns, `imgcount` is incremented and `"Sent image"` logged by the
unconditional tail — including the `off` mode, where nothing was
captured. -/
def newImage (bracketFn : ℚ → ℤ → ℤ → ℤ → ℤ → ℤ → ℤ) (fuel : ℕ)
    (s : ServerState) : PyRes ServerState :=
  PyRes.bind
  (match s.cam.mode with
   | .previewing => newImagePreview s
   | .capturing => newImageCapture bracketFn fuel s
   | .off => .ok s)
  (fun t => .ok (logLine { t with imgcount := t.imgcount + 1 }))

/-! ### Command dispatch (`DS8Server.processCmd`)

The command-code characters come from `codes.py`, which is not under
`src/`.  Modelled from the spec: the spec fixes a closed set of
distinct single-character codes; the concrete byte values below are
arbitrary but pairwise distinct, which is all the dispatch depends on.
The source's `elif` chain is modelled as an ordered first-match table
(`List.find?` scans in the chain's order, which is first-match
equivalent). -/

namespace Codes

/-- Modelled from the spec: command-code byte for "request image". -/
def newImage : Char := 'n'

/-- Modelled from the spec: set-zoom code. -/
def setZ : Char := 'z'

/-- Modelled from the spec: set-roi-y code. -/
def setY : Char := 'y'

/-- Modelled from the spec: set-roi-x code. -/
def setX : Char := 'x'

/-- Modelled from the spec: light-on code. -/
def lightOn : Char := '1'

/-- Modelled from the spec: light-off code. -/
def lightOff : Char := '0'

/-- Modelled from the spec: preview-on code. -/
def previewOn : Char := 'P'

/-- Modelled from the spec: preview-off code. -/
def previewOff : Char := 'p'

/-- Modelled from the spec: fast-reverse code. -/
def motorFrev : Char := 'r'

/-- Modelled from the spec: reverse-one-frame code. -/
def motorRev : Char := 'v'

/-- Modelled from the spec: motor-stop code. -/
def motorStop : Char := 's'

/-- Modelled from the spec: forward-one-frame code. -/
def motorFwd : Char := 'f'

/-- Modelled from the spec: fast-forward code. -/
def motorFfd : Char := 'F'

/-- Modelled from the spec: analogue-gain code. -/
def analogueGain : Char := 'g'

/-- Modelled from the spec: exposure-compensation code. -/
def expComp : Char := 'e'

/-- Modelled from the spec: white-balance-mode code. -/
def awbMode : Char := 'w'

/-- Modelled from the spec: colour-gain-blue code. -/
def gainBlue : Char := 'B'

/-- Modelled from the spec: colour-gain-red code. -/
def gainRed : Char := 'R'

/-- Modelled from the spec: brightness code. -/
def brightness : Char := 'b'

/-- Modelled from the spec: contrast code. -/
def contrast : Char := 'c'

/-- Modelled from the spec: saturation code. -/
def saturation : Char := 'S'

/-- Modelled from the spec: quit code. -/
def clientQuit : Char := 'q'

/-- Modelled from the spec: bracket-count code. -/
def bracketingShots : Char := 'k'

/-- Modelled from the spec: bracket-stops code. -/
def bracketingStops : Char := 'K'

/-- Modelled from the spec: test-capture code. -/
def testPhoto : Char := 't'

/-- Modelled from the spec: autoexposure-on code. -/
def autoexpOn : Char := 'A'

/-- Modelled from the spec: autoexposure-off code. -/
def autoexpOff : Char := 'a'

/-- Modelled from the spec: fixed-exposure code. -/
def fixExposure : Char := 'E'

/-- Modelled from the spec: frame-telemetry-on code. -/
def updateFrame : Char := 'u'

/-- Modelled from the spec: frame-telemetry-off code. -/
def noUpdateFrame : Char := 'U'

/-- Modelled from the spec: motor-wake code. -/
def activateMotor : Char := 'm'

/-- Modelled from the spec: motor-sleep code. -/
def deactivateMotor : Char := 'M'

/-- Modelled from the spec: reverse-N-frames code. -/
def capFrameRev : Char := 'j'

/-- Modelled from the spec: advance-N-frames code. -/
def capFrameAdv : Char := 'J'

/-- Modelled from the spec: stop-capture code. -/
def stopCapture : Char := 'h'

/-- Modelled from the spec: start-capture code. -/
def startCapture : Char := 'H'

/-- Modelled from the spec: vertical-flip-on code. -/
def vflipOn : Char := 'V'

/-- Modelled from the spec: vertical-flip-off code. -/
def vflipOff : Char := 'd'

/-- Modelled from the spec: horizontal-flip-on code. -/
def hflipOn : Char := 'D'

/-- Modelled from the spec: horizontal-flip-off code. -/
def hflipOff : Char := 'i'

/-- Modelled from the spec: constraint-mode code. -/
def constraintMode : Char := 'C'

/-- Modelled from the spec: exposure-mode code. -/
def exposureMode : Char := 'o'

/-- Modelled from the spec: metering-mode code. -/
def meteringMode : Char := 'O'

/-- Modelled from the spec: resolution code. -/
def setSize : Char := 'Z'

/-- Modelled from the spec: sharpness code. -/
def setSharp : Char := 'Y'

/-- Modelled from the spec: stop-signal-enable code. -/
def sendStop : Char := 'Q'

end Codes

/-- Enqueue one order on the motor queue. -/
def enqOrder (o : MotorOrder) (s : ServerState) : ServerState :=
  { s with motorOrders := s.motorOrders ++ [o] }

/-- Modelled from the spec: `DS8Control.lightOn` (in
`controlProcess.py`, not under `src/`) turns the lamp on. -/
def ctrlLightOn (s : ServerState) : ServerState :=
  enqOrder .lampOn { s with light := true }

/-- Modelled from the spec: `DS8Control.lightOff` turns the lamp off. -/
def ctrlLightOff (s : ServerState) : ServerState :=
  enqOrder .lampOff { s with light := false }

/-- Modelled from the spec: `DS8Control.fwdFrame(n)` enqueues an
advance-`n`-frames order. -/
def ctrlFwdFrame (n : ℤ) (s : ServerState) : ServerState :=
  enqOrder (.fwd n) s

/-- Modelled from the spec: `DS8Control.revFrame(n)` enqueues a
reverse-`n`-frames order. -/
def ctrlRevFrame (n : ℤ) (s : ServerState) : ServerState :=
  enqOrder (.rev n) s

/-- Modelled from the spec: `DS8Server.exit` — notify the client with
`'T'`, clean up motor and light, set the exit events, and drain the
worker pool.  (Socket teardown has no observable effect in the
model.) -/
def exitSrv (s : ServerState) : ServerState :=
  let s := { s with wire := s.wire ++ [.flagB 'T', .flushW] }
  let s := ctrlLightOff (enqOrder .stop s)
  { s with mainExit := true, pool := 0 }

/-- Run a handler on the Python-`int`-parsed argument; a parse failure
raises `ValueError`. -/
def withIntArg (arg : List Char) (k : ℤ → ServerState → PyRes ServerState)
    (s : ServerState) : PyRes ServerState :=
  match pyInt arg with
  | some n => k n s
  | none => .exn .valueError

/-- Run a handler on the Python-`float`-parsed argument; a parse
failure raises `ValueError`. -/
def withFloatArg (arg : List Char) (k : ℚ → ServerState → PyRes ServerState)
    (s : ServerState) : PyRes ServerState :=
  match pyFloat arg with
  | some q => k q s
  | none => .exn .valueError

/-- Update one field of the camera record. -/
def setCam (f : CamState → CamState) (s : ServerState) : ServerState :=
  { s with cam := f s.cam }

/-- The dispatch table of `DS8Server.processCmd`, one entry per `elif`
branch, in the source's order.  Each handler receives the remainder of
the command line (the `setting` string) and the session state. -/
def cmdTable (bracketFn : ℚ → ℤ → ℤ → ℤ → ℤ → ℤ → ℤ) (fuel : ℕ) :
    List (Char × (List Char → ServerState → PyRes ServerState)) :=
  [(Codes.newImage, fun _ s => newImage bracketFn fuel s),
   (Codes.setZ, fun arg s => withIntArg arg
      (fun n s => .ok (setCam (fun c => { c with zoom := n }) s)) s),
   (Codes.setY, fun arg s => withIntArg arg
      (fun n s => .ok (setCam (fun c => { c with roiY := n }) s)) s),
   (Codes.setX, fun arg s => withIntArg arg
      (fun n s => .ok (setCam (fun c => { c with roiX := n }) s)) s),
   (Codes.lightOn, fun _ s => .ok (ctrlLightOn s)),
   (Codes.lightOff, fun _ s => .ok (ctrlLightOff s)),
   (Codes.previewOn, fun _ s =>
      .ok (setCam (fun c => { c with mode := .previewing })
        (sendLightOnW (ctrlLightOn s)))),
   (Codes.previewOff, fun _ s =>
      .ok (setCam (fun c => { c with mode := .off })
        (sendLightOffW (ctrlLightOff s)))),
   (Codes.motorFrev, fun _ s => .ok (enqOrder .contRev s)),
   (Codes.motorRev, fun _ s => .ok (ctrlRevFrame 1 s)),
   (Codes.motorStop, fun _ s => .ok (enqOrder .stop s)),
   (Codes.motorFwd, fun _ s => .ok (ctrlFwdFrame 1 s)),
   (Codes.motorFfd, fun _ s => .ok (enqOrder .contFwd s)),
   (Codes.analogueGain, fun arg s => withFloatArg arg
      (fun q s => .ok (setCam (fun c => { c with analogueGainCtrl := roundPy q 1 }) s)) s),
   (Codes.expComp, fun arg s => withFloatArg arg
      (fun q s => .ok (setCam (fun c => { c with exposureValue := roundPy q 1 }) s)) s),
   (Codes.awbMode, fun arg s => withIntArg arg
      (fun n s => .ok (setCam (fun c => { c with awbModeIdx := n }) s)) s),
   (Codes.gainBlue, fun arg s => withFloatArg arg
      (fun q s => .ok (setCam (fun c => { c with gainBlue := roundPy q 2 }) s)) s),
   (Codes.gainRed, fun arg s => withFloatArg arg
      (fun q s => .ok (setCam (fun c => { c with gainRed := roundPy q 2 }) s)) s),
   (Codes.brightness, fun arg s => withFloatArg arg
      (fun q s => .ok (setCam (fun c => { c with brightness := roundPy q 2 }) s)) s),
   (Codes.contrast, fun arg s => withFloatArg arg
      (fun q s => .ok (setCam (fun c => { c with contrast := roundPy q 2 }) s)) s),
   (Codes.saturation, fun arg s => withFloatArg arg
      (fun q s => .ok (setCam (fun c => { c with saturation := roundPy q 2 }) s)) s),
   (Codes.clientQuit, fun _ s => .ok (exitSrv s)),
   (Codes.bracketingShots, fun arg s => withIntArg arg
      (fun n s => .ok (setCam (fun c => { c with bracketing := n }) s)) s),
   (Codes.bracketingStops, fun arg s => withFloatArg arg
      (fun q s => .ok (setCam (fun c => { c with stops := roundPy q 1 }) s)) s),
   (Codes.testPhoto, fun _ s =>
      let s := { s with autoAdvance := false, svSendStop := 0 }
      let s := sendLightOnW (ctrlLightOn s)
      let s := setCam (fun c => { c with mode := .capturing }) s
      (newImage bracketFn fuel s).bind fun s =>
        .ok (sendLightOffW (ctrlLightOff s))),
   (Codes.autoexpOn, fun _ s =>
      .ok (setCam (fun c => { c with autoExp := true, aeEnable := true }) s)),
   (Codes.autoexpOff, fun _ s =>
      .ok (setCam (fun c => { c with autoExp := false, aeEnable := false }) s)),
   (Codes.fixExposure, fun arg s => withFloatArg arg
      (fun q s => .ok (setCam (fun c => { c with ManExposureTime := pyTruncQ (q * 1000) }) s)) s),
   (Codes.updateFrame, fun _ s => .ok { s with svUpdateFrame := 1 }),
   (Codes.noUpdateFrame, fun _ s => .ok { s with svUpdateFrame := 0 }),
   (Codes.activateMotor, fun _ s => .ok (enqOrder .wake s)),
   (Codes.deactivateMotor, fun _ s => .ok (enqOrder .sleepMotor s)),
   (Codes.capFrameRev, fun arg s =>
      if arg = [] then .ok (ctrlRevFrame 1 s)
      else withIntArg arg (fun n s => .ok (ctrlRevFrame n s)) s),
   (Codes.capFrameAdv, fun arg s =>
      if arg = [] then .ok (ctrlFwdFrame 1 s)
      else withIntArg arg (fun n s => .ok (ctrlFwdFrame n s)) s),
   (Codes.stopCapture, fun _ s =>
      .ok (sendLightOffW (ctrlLightOff
        (setCam (fun c => { c with mode := .off }) s)))),
   (Codes.startCapture, fun _ s =>
      let s := { s with svSendStop := 0 }
      let s := sendLightOnW (ctrlLightOn s)
      let s := setCam (fun c => { c with mode := .capturing }) s
      let s := { s with autoAdvance := true }
      newImage bracketFn fuel s),
   (Codes.vflipOn, fun _ s => .ok (setCam (fun c => { c with vflip := true }) s)),
   (Codes.vflipOff, fun _ s => .ok (setCam (fun c => { c with vflip := false }) s)),
   (Codes.hflipOn, fun _ s => .ok (setCam (fun c => { c with hflip := true }) s)),
   (Codes.hflipOff, fun _ s => .ok (setCam (fun c => { c with hflip := false }) s)),
   (Codes.constraintMode, fun arg s => withIntArg arg
      (fun n s => .ok (setCam (fun c => { c with constraintModeIdx := n }) s)) s),
   (Codes.exposureMode, fun arg s => withIntArg arg
      (fun n s => .ok (setCam (fun c => { c with exposureModeIdx := n }) s)) s),
   (Codes.meteringMode, fun arg s => withIntArg arg
      (fun n s => .ok (setCam (fun c => { c with meteringModeIdx := n }) s)) s),
   (Codes.setSize, fun arg s => withIntArg arg
      (fun n s => .ok (setCam (fun c => { c with sizeIdx := n }) s)) s),
   (Codes.setSharp, fun arg s => withFloatArg arg
      (fun q s => .ok (setCam (fun c => { c with sharpness := roundPy q 1 }) s)) s),
   (Codes.sendStop, fun _ s => .ok { s with svSendStop := 1 })]

/-- `DS8Server.processCmd(cmdstr)`: an empty command string is logged
and ignored; otherwise all newlines are stripped
(`cmdstr.replace("\n", "")`), the command is logged, the first
character is taken as the code (`cmdstr[0]` — an `IndexError` when the
stripped string is empty, e.g. for a bare newline), and the matching
branch, if any, runs on the remainder; a code matching no branch does
nothing. -/
def processCmd (bracketFn : ℚ → ℤ → ℤ → ℤ → ℤ → ℤ → ℤ) (fuel : ℕ)
    (line : List Char) (s : ServerState) : PyRes ServerState :=
  if line = [] then .ok (logLine s)
  else
    let cs := line.filter (fun c => c ≠ '\n')
    let s := logLine s
    match cs with
    | [] => .exn .indexError
    | cmd :: setting =>
      match (cmdTable bracketFn fuel).find? (fun p => p.1 == cmd) with
      | some p => p.2 setting s
      | none => .ok s

/-- The list of known command codes, in dispatch order. -/
def allCodes : List Char :=
  [Codes.newImage, Codes.setZ, Codes.setY, Codes.setX, Codes.lightOn,
   Codes.lightOff, Codes.previewOn, Codes.previewOff, Codes.motorFrev,
   Codes.motorRev, Codes.motorStop, Codes.motorFwd, Codes.motorFfd,
   Codes.analogueGain, Codes.expComp, Codes.awbMode, Codes.gainBlue,
   Codes.gainRed, Codes.brightness, Codes.contrast, Codes.saturation,
   Codes.clientQuit, Codes.bracketingShots, Codes.bracketingStops,
   Codes.testPhoto, Codes.autoexpOn, Codes.autoexpOff, Codes.fixExposure,
   Codes.updateFrame, Codes.noUpdateFrame, Codes.activateMotor,
   Codes.deactivateMotor, Codes.capFrameRev, Codes.capFrameAdv,
   Codes.stopCapture, Codes.startCapture, Codes.vflipOn, Codes.vflipOff,
   Codes.hflipOn, Codes.hflipOff, Codes.constraintMode, Codes.exposureMode,
   Codes.meteringMode, Codes.setSize, Codes.setSharp, Codes.sendStop]

/-! ### The connection lock

Every writer of the outbound binary channel is embedded as an event
program: `acquire` the connection lock, `write` the items of one
frame/record, `release`.  A small interleaving semantics lets any
number of such programs (the session thread, the five pool workers,
the hardware-control process) run concurrently; the lock is a single
`Option` cell, so at most one thread can hold it, and `acquire` only
succeeds when it is free. -/

/-- One event of a writer program. -/
inductive Evt where
  | acquire
  | release
  | write (w : WireItem)
deriving DecidableEq

/-- `wlAux holding es`: the event list `es` is well-locked when the
thread currently holds the lock iff `holding` — every write happens
while holding, acquire/release strictly alternate, and the program
ends released. -/
def wlAux : Bool → List Evt → Bool
  | false, [] => true
  | true, [] => false
  | false, .acquire :: es => wlAux true es
  | false, .release :: _ => false
  | false, .write _ :: _ => false
  | true, .release :: es => wlAux false es
  | true, .write _ :: es => wlAux true es
  | true, .acquire :: _ => false

/-- A writer program is well-locked when it is valid starting from the
released state. -/
def wellLocked (es : List Evt) : Prop := wlAux false es = true

/-- The event trace of one `with connectionLock:` block writing the
given items. -/
def withLockTrace (items : List WireItem) : List Evt :=
  .acquire :: items.map .write ++ [.release]

/-- The lock/write trace of `DS8Server.sendSS`. -/
def sendSSTrace (c : Char) (m : Meta) : List Evt :=
  withLockTrace (sendSSItems c m)

/-- The lock/write trace of `DS8Server.sendGains`. -/
def sendGainsTrace (m : Meta) : List Evt :=
  withLockTrace (sendGainsItems m)

/-- The lock/write trace of `DS8Server.sendLightOn`. -/
def sendLightOnTrace : List Evt :=
  withLockTrace [.flagB 'l', .flushW]

/-- The lock/write trace of `DS8Server.sendLightOff`. -/
def sendLightOffTrace : List Evt :=
  withLockTrace [.flagB 'L', .flushW]

/-- The lock/write trace of `DS8Server.infExitClient`. -/
def infExitClientTrace : List Evt :=
  withLockTrace [.flagB 'X', .flushW]

/-- The lock/write trace of the client notification at the start of
`DS8Server.exit`. -/
def exitNoticeTrace : List Evt :=
  withLockTrace [.flagB 'T', .flushW]

/-- The items `ImageStreamer.sendFile` writes for one frame: role-flag
byte, int32 LE exposure time, uint32 LE length, a flush, then the raw
image bytes. -/
def sendFileItems (flag : Char) (exp : ℤ) (size : ℕ) : List WireItem :=
  [.flagB flag, .i32 exp, .u32 size, .flushW, .imgBytes size]

/-- The lock/write trace of one `ImageStreamer.run` send
(`with self.connLock: self.sendFile(...)`). -/
def streamerSendTrace (flag : Char) (exp : ℤ) (size : ℕ) : List Evt :=
  withLockTrace (sendFileItems flag exp size)

/-- Modelled from the spec: the `MotorDriver` hardware-control process
(`controlProcess.py`, not under `src/`) receives the same
`connectionLock` and writes its advance/stop telemetry while holding
it; one such notice is a single record written under the lock. -/
def motorNoticeTrace (w : WireItem) : List Evt :=
  withLockTrace [w]

/-- The shared-lock system: the lock cell (holding the index of the
owner thread, if any) and each thread's remaining event program. -/
structure Sys where
  lock : Option ℕ
  progs : List (List Evt)

/-- One interleaving step: thread `i` performs its next event.
Acquiring requires the lock to be free; releasing requires owning it;
writing has no lock-side guard (the channel itself enforces nothing —
mutual exclusion must come from the programs). -/
inductive Step : Sys → ℕ × Evt → Sys → Prop where
  | acq {s : Sys} {i : ℕ} {r : List Evt} :
      s.lock = none → s.progs.get? i = some (.acquire :: r) →
      Step s (i, .acquire) ⟨some i, s.progs.set i r⟩
  | rel {s : Sys} {i : ℕ} {r : List Evt} :
      s.lock = some i → s.progs.get? i = some (.release :: r) →
      Step s (i, .release) ⟨none, s.progs.set i r⟩
  | wr {s : Sys} {i : ℕ} {w : WireItem} {r : List Evt} :
      s.progs.get? i = some (.write w :: r) →
      Step s (i, .write w) ⟨s.lock, s.progs.set i r⟩

/-- A labelled execution: the list of steps taken, in order. -/
inductive Steps : Sys → List (ℕ × Evt) → Sys → Prop where
  | nil {s : Sys} : Steps s [] s
  | cons {s s' s'' : Sys} {l : ℕ × Evt} {tr : List (ℕ × Evt)} :
      Step s l s' → Steps s' tr s'' → Steps s (l :: tr) s''

/-- System invariant: every thread's remaining program is well-locked
relative to whether that thread currently owns the lock. -/
def SysInv (s : Sys) : Prop :=
  ∀ i p, s.progs.get? i = some p → wlAux (s.lock == some i) p = true

/-! ### The transmit worker's cleanup path (`ImageStreamer.run`)

One iteration of the worker loop is `try: with connLock:
sendFile(...) finally: event.clear(); with poolLock:
pool.append(self)`.  Its observable event trace is modelled for both
outcomes of the send: `failAt = none` when every write succeeds, and
`failAt = some k` when the `k`-th write raises — the `with` statement
still releases the connection lock and the `finally` block still
clears the wake event and appends the worker back to the pool before
the exception propagates. -/

/-- Events of one worker iteration: lock handling, wire writes, the
wake-event clear, and the pool re-append. -/
inductive SEvt where
  | lockAcq
  | lockRel
  | wireWr (w : WireItem)
  | clearEvent
  | appendPool
deriving DecidableEq

/-- The event trace of one `ImageStreamer.run` iteration; `failAt =
some k` means the `k`-th write of `sendFile` raised, so only the
first `k` writes happened. -/
def streamerIter (flag : Char) (exp : ℤ) (size : ℕ) (failAt : Option ℕ) : List SEvt :=
  let written := match failAt with
    | none => sendFileItems flag exp size
    | some k => (sendFileItems flag exp size).take k
  .lockAcq :: written.map .wireWr ++ [.lockRel, .clearEvent, .appendPool]

/-! ### Statement helpers and concrete fixtures -/

/-- The part of the session state that the frame-effect claims track:
queued frames, motor orders, the frame counter, the auto-advance flag,
the bracket count, the mode, the motor-busy flag, and the idle-pool
size.  `Tame s s'` says an operation changed none of them. -/
def Tame (s s' : ServerState) : Prop :=
  s'.frames = s.frames ∧ s'.motorOrders = s.motorOrders ∧
  s'.imgcount = s.imgcount ∧ s'.autoAdvance = s.autoAdvance ∧
  s'.cam.bracketing = s.cam.bracketing ∧ s'.cam.mode = s.cam.mode ∧
  s'.capEvent = s.capEvent ∧ s'.pool = s.pool

/-- Wire of a run's final state (empty for a non-`ok` outcome); lets
closed statements talk about the channel contents of a concrete run. -/
def wireOf (r : PyRes ServerState) : List WireItem :=
  match r with
  | .ok s => s.wire
  | _ => []

/-- Final state of a run, with a fallback for non-`ok` outcomes. -/
def resultState (r : PyRes ServerState) (dflt : ServerState) : ServerState :=
  match r with
  | .ok s => s
  | _ => dflt

/-- A metadata record with the given exposure time and analogue gain
(unit digital gain, 33333 µs frame duration, unit colour gains). -/
def mkMeta (exp : ℤ) (gain : ℚ) : Meta :=
  { exposureTime := exp, analogueGain := gain, digitalGain := 1,
    frameDuration := 33333, colourGainRed := 1, colourGainBlue := 1 }

/-- A concrete camera state for witnesses: capturing disabled, manual
exposure 2000 µs, single-shot bracketing, auto white balance off. -/
def sampleCam : CamState :=
  { mode := .off, zoom := 0, roiX := 0, roiY := 0, autoExp := false,
    aeEnable := false, ManExposureTime := 2000, AeExposureTime := 500,
    exposureTime := 0, controlsExposureTime := 0, bracketing := 1,
    stops := 1, awb := false, awbModeIdx := 0, analogueGainCtrl := 1,
    exposureValue := 0, gainBlue := 2, gainRed := 2, brightness := 0,
    contrast := 1, saturation := 1, sharpness := 1, vflip := false,
    hflip := false, constraintModeIdx := 0, exposureModeIdx := 0,
    meteringModeIdx := 0, sizeIdx := 1, minExpTime := 10,
    maxExpTime := 1000000, frameRate := 30, quality := 60 }

/-- A concrete session state for witnesses: empty wire and queues,
five idle workers, a constant metadata oracle reporting 2000 µs at
unit gain, and a wide exposure tolerance. -/
def sampleState : ServerState :=
  { imgcount := 0, baseExpTime := 1000, autoAdvance := false,
    svUpdateFrame := 0, svSendStop := 1, capEvent := false,
    mainExit := false, light := false, cam := sampleCam, pool := 5,
    motorOrders := [], wire := [], frames := [], logs := 0,
    metaAt := fun _ => mkMeta 2000 1, cursor := 0, numOfRetries := 3,
    timeExpTolerance := 1000000 }

/-- A concrete bracket function for evaluating capture runs (the
bracket value only feeds the camera's exposure control, which none of
the evaluated properties depend on; `bracketSS` itself is not
kernel-evaluable because of the real-number power). -/
def sampleBFn : ℚ → ℤ → ℤ → ℤ → ℤ → ℤ → ℤ :=
  fun _ _ _ ss _ _ => ss

/-- Session state poised in an autoexposure run whose metadata oracle
always reports analogue gain 1 at a stable 1000 µs exposure. -/
def aeStart : ServerState :=
  { sampleState with
    cam := { sampleCam with AeExposureTime := 1000 },
    metaAt := fun _ => mkMeta 1000 1,
    timeExpTolerance := 1000000000 }

/-- The state `aeStart` reaches after one decision iteration of the
autoexposure loop (stabilization read, break-check read, decrease-check
read, then the 500 µs decrease). -/
def aeAfter1 : ServerState :=
  setCtrlExp (setAeTime { aeStart with cursor := 3 } 500) 500

/-- A metadata oracle under which the autoexposure loop converges:
gain 1 (reads 0–2, causing a decrease), then gain 2 (reads 3–6,
causing an increase after the decrease), then gain 1 again (reads 7
on, causing acceptance). -/
def convOracle : ℕ → Meta :=
  fun n => if n < 3 then mkMeta 1000 1 else if n < 7 then mkMeta 1000 2
    else mkMeta 1000 1

/-- Session state whose autoexposure run converges (see `convOracle`). -/
def convState : ServerState :=
  { aeStart with metaAt := convOracle }

/-- A concrete capturing state: mode capturing, single-shot bracket,
manual exposure, auto white balance off, motor idle, pool free. -/
def capState : ServerState :=
  { sampleState with
    cam := { sampleCam with mode := .capturing } }

/-- A concrete previewing state with autoexposure telemetry enabled
(auto white balance off). -/
def prevState : ServerState :=
  { sampleState with
    cam := { sampleCam with mode := .previewing, autoExp := true } }

/-- A session state with the camera mode forced to `off` (for stating
facts about the `off` branch of `newImage` over arbitrary states). -/
def offMode (s : ServerState) : ServerState :=
  setCam (fun c => { c with mode := .off }) s

/-- A one-thread lock system whose single program is the
`sendLightOn` writer, for exercising the interleaving semantics on a
concrete execution. -/
def w1Sys : Sys := ⟨none, [withLockTrace [.flagB 'l', .flushW]]⟩

/-- `w1Sys` after its thread acquires the connection lock. -/
def w1Mid : Sys :=
  ⟨some 0, [[Evt.write (.flagB 'l'), Evt.write .flushW, Evt.release]]⟩

/-- `w1Mid` after the thread writes the flag byte. -/
def w1End : Sys := ⟨some 0, [[Evt.write .flushW, Evt.release]]⟩

/-! ## Theorems -/

/-! ### Supporting lemmas: the bracket calculator -/

/-- Truncation toward zero of an integer is the identity. -/
theorem pyTruncR_intCast (z : ℤ) : pyTruncR ((z : ℤ) : ℝ) = z := by
  unfold pyTruncR
  by_cases h : (0 : ℝ) ≤ (z : ℝ)
  · rw [if_pos h, Int.floor_intCast]
  · rw [if_neg h]
    rw [show (-(z : ℝ)) = (((-z : ℤ)) : ℝ) by push_cast; ring, Int.floor_intCast]
    ring

/-- A value already inside the bounds is not changed by the clamp. -/
theorem clampI_of_le (v minE maxE : ℤ) (h1 : minE ≤ v) (h2 : v ≤ maxE) :
    clampI v minE maxE = v := by
  unfold clampI clampHi
  split_ifs <;> omega

/-- When the bounds are ordered, the clamp lands inside them. -/
theorem clampI_mem (v minE maxE : ℤ) (h : minE ≤ maxE) :
    minE ≤ clampI v minE maxE ∧ clampI v minE maxE ≤ maxE := by
  unfold clampI clampHi
  split_ifs <;> omega

theorem sqrtTwoSq : Real.sqrt 2 * Real.sqrt 2 = 2 :=
  Real.mul_self_sqrt (by norm_num)

theorem sqrtTwoPos : 0 < Real.sqrt 2 := Real.sqrt_pos.mpr (by norm_num)

/-- `2 ** (-1/2)` as the reciprocal square root of two. -/
theorem rpowNegHalf : (2 : ℝ) ^ ((-(1 / 2) : ℝ)) = (Real.sqrt 2)⁻¹ := by
  rw [Real.rpow_neg (by norm_num), Real.sqrt_eq_rpow]

/-- `bracketSS` at an integer-valued exponent reduces to a `zpow`. -/
theorem bracketSS_int_exp (stops : ℚ) (shot bkt ss minE maxE k : ℤ)
    (hbkt : bkt ≠ 1)
    (hexp : (((shot : ℝ) - 1) / ((bkt : ℝ) - 1) * 2 - 1) * (stops : ℝ) / 2 = (k : ℝ)) :
    bracketSS stops shot bkt ss minE maxE
      = clampI (pyTruncR ((ss : ℝ) * (2 : ℝ) ^ k)) minE maxE := by
  rw [bracketSS, if_neg hbkt]
  show clampI (pyTruncR ((ss : ℝ) *
      (2 : ℝ) ^ ((((shot : ℝ) - 1) / ((bkt : ℝ) - 1) * 2 - 1) * (stops : ℝ) / 2)))
      minE maxE = _
  rw [hexp, Real.rpow_intCast]

/-- The value of the spec's untruncated bracket formula at
stops 1, shot 1 of 2, base 1000. -/
theorem specBracketVal : specBracketExpR 1 1 2 1000 = 500 * Real.sqrt 2 := by
  unfold specBracketExpR
  have harg : ((((1 : ℤ) : ℝ) - 1) / (((2 : ℤ) : ℝ) - 1) * 2 - 1) * (((1 : ℚ)) : ℝ) / 2
      = (-(1 / 2) : ℝ) := by push_cast; norm_num
  rw [harg, rpowNegHalf]
  have hinv : (Real.sqrt 2)⁻¹ = Real.sqrt 2 / 2 := by field_simp
  rw [hinv]
  push_cast
  ring

/-- The value `bracketSS` actually returns at the same input
(truncated to 707 µs). -/
theorem bracketSSVal : bracketSS 1 1 2 1000 0 1000000000 = 707 := by
  rw [bracketSS, if_neg (by norm_num)]
  show clampI (pyTruncR (((1000 : ℤ) : ℝ) *
      (2 : ℝ) ^ (((((1 : ℤ) : ℝ) - 1) / (((2 : ℤ) : ℝ) - 1) * 2 - 1) * ((1 : ℚ) : ℝ) / 2)))
      0 1000000000 = 707
  have harg : ((((1 : ℤ) : ℝ) - 1) / (((2 : ℤ) : ℝ) - 1) * 2 - 1) * (((1 : ℚ)) : ℝ) / 2
      = (-(1 / 2) : ℝ) := by push_cast; norm_num
  rw [harg, rpowNegHalf]
  have hinv : (Real.sqrt 2)⁻¹ = Real.sqrt 2 / 2 := by field_simp
  rw [hinv]
  have hs := sqrtTwoSq
  have hp := sqrtTwoPos
  have hlow : (707 : ℝ) ≤ ((1000 : ℤ) : ℝ) * (Real.sqrt 2 / 2) := by
    push_cast
    nlinarith
  have hhigh : ((1000 : ℤ) : ℝ) * (Real.sqrt 2 / 2) < 708 := by
    push_cast
    nlinarith
  have htr : pyTruncR (((1000 : ℤ) : ℝ) * (Real.sqrt 2 / 2)) = 707 := by
    unfold pyTruncR
    rw [if_pos (by positivity)]
    rw [Int.floor_eq_iff]
    constructor
    · exact_mod_cast hlow
    · push_cast
      linarith
  rw [htr]
  exact clampI_of_le _ _ _ (by omega) (by omega)

/-! ### Claim C2 -/

/-- Claim C2, counterexample: with camera bounds `[1, 10]` and base
exposure 20, a single-shot call (`shotCount = 1`) returns 20, which
lies outside `[minExposure, maxExposure]` — the `shotCount = 1` branch
returns the base exposure without clamping. -/
theorem claim2_cex :
    bracketSS 1 1 1 20 1 10 = 20 ∧ ¬ ((1 : ℤ) ≤ 20 ∧ (20 : ℤ) ≤ 10) := by
  constructor
  · simp [bracketSS]
  · decide

/-- Claim C2, amended: for every input with `shotCount ≠ 1` and
ordered camera bounds, the value returned by `bracketSS` lies in
`[minExposure, maxExposure]`; in the `shotCount = 1` case the base
exposure is returned unchanged and may lie outside the interval. -/
theorem claim2_amended (stops : ℚ) (shot bkt ss minE maxE : ℤ)
    (h1 : bkt ≠ 1) (h2 : minE ≤ maxE) :
    minE ≤ bracketSS stops shot bkt ss minE maxE ∧
      bracketSS stops shot bkt ss minE maxE ≤ maxE := by
  rw [bracketSS, if_neg h1]
  show minE ≤ clampI _ minE maxE ∧ clampI _ minE maxE ≤ maxE
  exact clampI_mem _ _ _ h2

/-- Witness for `claim2_amended` at a concrete input. -/
theorem claim2_amended_witness :
    (2 : ℤ) ≠ 1 ∧ (1 : ℤ) ≤ 10 ∧
      (1 ≤ bracketSS 1 1 2 1000 1 10 ∧ bracketSS 1 1 2 1000 1 10 ≤ 10) :=
  ⟨by decide, by decide, claim2_amended 1 1 2 1000 1 10 (by decide) (by decide)⟩

/-! ### Claim C3 -/

/-- Claim C3, counterexample: at stops 1, shot 1 of 2, base 1000 and
wide bounds `[0, 10^9]`, `bracketSS` returns 707 while the claim's
formula `baseExposure * 2^(((shotIndex-1)/(shotCount-1)*2 - 1) *
stops / 2)` (clamped) equals `500 * √2 = 707.10…` — the code
truncates the product to an integer before clamping, which the claim's
formula omits. -/
theorem claim3_cex :
    bracketSS 1 1 2 1000 0 1000000000 = 707 ∧
      ((bracketSS 1 1 2 1000 0 1000000000 : ℤ) : ℝ)
        ≠ clampR (specBracketExpR 1 1 2 1000) 0 1000000000 := by
  refine ⟨bracketSSVal, ?_⟩
  rw [bracketSSVal, specBracketVal]
  have hs := sqrtTwoSq
  have hp := sqrtTwoPos
  unfold clampR clampHiR
  rw [show (if (1000000000 : ℝ) < 500 * Real.sqrt 2 then (1000000000 : ℝ)
      else 500 * Real.sqrt 2) = 500 * Real.sqrt 2 from if_neg (by nlinarith)]
  rw [if_neg (by nlinarith)]
  intro hc
  have h7 : (707 : ℝ) * 707 = 500 * Real.sqrt 2 * (500 * Real.sqrt 2) := by
    rw [← hc]
    push_cast
    ring
  nlinarith

/-- Claim C3, amended: `bracketSS` returns the base exposure unchanged
whenever `shotCount = 1`, for any stops value; otherwise it returns
`int(baseExposure * 2^(((shotIndex-1)/(shotCount-1)*2 - 1) * stops /
2))` — the spec formula truncated toward zero to an integer — clamped
to `[minExposure, maxExposure]`; in particular for stops 2, shotCount
3, base 1000 the sequence for shots 1, 2, 3 is 500, 1000, 2000
(exact, no truncation loss) whenever the bounds do not cut it. -/
theorem claim3_amended :
    (∀ (stops : ℚ) (shot ss minE maxE : ℤ),
        bracketSS stops shot 1 ss minE maxE = ss) ∧
    (∀ (stops : ℚ) (shot bkt ss minE maxE : ℤ), bkt ≠ 1 →
        bracketSS stops shot bkt ss minE maxE
          = clampI (pyTruncR (specBracketExpR stops shot bkt ss)) minE maxE) ∧
    (∀ minE maxE : ℤ, minE ≤ 500 → 2000 ≤ maxE →
        bracketSS 2 1 3 1000 minE maxE = 500 ∧
        bracketSS 2 2 3 1000 minE maxE = 1000 ∧
        bracketSS 2 3 3 1000 minE maxE = 2000) := by
  refine ⟨fun stops shot ss minE maxE => by rw [bracketSS, if_pos rfl],
    fun stops shot bkt ss minE maxE h => by rw [bracketSS, if_neg h]; rfl,
    fun minE maxE hmin hmax => ⟨?_, ?_, ?_⟩⟩
  · rw [bracketSS_int_exp 2 1 3 1000 minE maxE (-1) (by norm_num)
      (by push_cast; norm_num)]
    rw [show ((1000 : ℤ) : ℝ) * (2 : ℝ) ^ (-1 : ℤ) = ((500 : ℤ) : ℝ) by norm_num]
    rw [pyTruncR_intCast]
    exact clampI_of_le _ _ _ (by omega) (by omega)
  · rw [bracketSS_int_exp 2 2 3 1000 minE maxE 0 (by norm_num)
      (by push_cast; norm_num)]
    rw [show ((1000 : ℤ) : ℝ) * (2 : ℝ) ^ (0 : ℤ) = ((1000 : ℤ) : ℝ) by norm_num]
    rw [pyTruncR_intCast]
    exact clampI_of_le _ _ _ (by omega) (by omega)
  · rw [bracketSS_int_exp 2 3 3 1000 minE maxE 1 (by norm_num)
      (by push_cast; norm_num)]
    rw [show ((1000 : ℤ) : ℝ) * (2 : ℝ) ^ (1 : ℤ) = ((2000 : ℤ) : ℝ) by norm_num]
    rw [pyTruncR_intCast]
    exact clampI_of_le _ _ _ (by omega) (by omega)

/-- Witness for `claim3_amended` at concrete bounds. -/
theorem claim3_amended_witness :
    (10 : ℤ) ≤ 500 ∧ (2000 : ℤ) ≤ 1000000 ∧
      (bracketSS 2 1 3 1000 10 1000000 = 500 ∧
       bracketSS 2 2 3 1000 10 1000000 = 1000 ∧
       bracketSS 2 3 3 1000 10 1000000 = 2000) :=
  ⟨by decide, by decide, claim3_amended.2.2 10 1000000 (by decide) (by decide)⟩

/-! ### Supporting lemmas: autoexposure -/

/-- When the first stabilization read is already within tolerance, the
inner loop exits after that single read, for any fuel. -/
theorem aeStab_first (fuel : ℕ) (s : ServerState)
    (h : |(s.metaAt s.cursor).exposureTime - s.cam.AeExposureTime|
      ≤ s.timeExpTolerance) :
    aeStab fuel s = some { s with cursor := s.cursor + 1 } := by
  cases fuel <;> simp [aeStab, captureMetadata, h]

/-! ### Claim C4 -/

/-- Claim C4, counterexample: under a metadata oracle that constantly
reports analogue gain 1, the first decision iteration (from no prior
adjustment) decreases the exposure and records the decrease; at the
next iteration the reported gain is again 1 and a decrease has already
occurred in this run (`adjust1 = true`), yet the algorithm does not
accept — it decreases again (the break requires `adjust2`, which only
an increase after a decrease sets) — and the whole run
`calcExpParmsAE` never accepts (here: still running after 20
iterations, each leaving gain at 1; fuel 3 exceeds the two
iterations within which the claim predicts acceptance). -/
theorem claim4_cex :
    aeIter 5 false false aeStart = .next true false aeAfter1 ∧
    (aeAfter1.metaAt (aeAfter1.cursor + 1)).analogueGain = 1 ∧
    AEIterOut.isAccepted (aeIter 5 true false aeAfter1) = false ∧
    calcExpParmsAE 3 aeStart = PyRes.hang :=
  ⟨rfl, rfl, rfl, rfl⟩

/-- Claim C4, amended: the convergence loop accepts the current
exposure and stops when the reported analogue gain equals 1 **and an
increase of the exposure time has already followed a decrease in this
run** (the `adjust2` flag), not merely when a decrease has occurred;
and whenever `calcExpParmsAE` returns, the accepted exposure time has
been persisted as the new base estimate and automatic gain has been
disabled. -/
theorem claim4_amended :
    (∀ (fuel : ℕ) (a1 : Bool) (s : ServerState),
        |(s.metaAt s.cursor).exposureTime - s.cam.AeExposureTime|
          ≤ s.timeExpTolerance →
        (s.metaAt (s.cursor + 1)).analogueGain = 1 →
        aeIter fuel a1 true s = .accepted { s with cursor := s.cursor + 2 }) ∧
    (∀ (fuel : ℕ) (s s' : ServerState), calcExpParmsAE fuel s = .ok s' →
        s'.baseExpTime = s'.cam.AeExposureTime ∧ s'.cam.aeEnable = false) := by
  constructor
  · intro fuel a1 s h1 h2
    rw [aeIter, aeStab_first fuel s h1]
    show aeDecide a1 true { s with cursor := s.cursor + 1 } = _
    rw [aeDecide, if_pos ⟨h2, rfl⟩]
  · intro fuel s s' h
    unfold calcExpParmsAE at h
    cases hv : aeLoop fuel false false (calcPre s) with
    | ok v =>
        rw [hv] at h
        simp only [PyRes.bind, PyRes.ok.injEq] at h
        subst h
        constructor <;> rfl
    | exn e =>
        rw [hv] at h
        simp [PyRes.bind] at h
    | hang =>
        rw [hv] at h
        simp [PyRes.bind] at h

/-- Witness for `claim4_amended`: a concrete acceptance step, and a
concrete converging run whose final state has the persisted base
exposure and disabled automatic gain. -/
theorem claim4_amended_witness :
    (|(aeStart.metaAt aeStart.cursor).exposureTime - aeStart.cam.AeExposureTime|
        ≤ aeStart.timeExpTolerance) ∧
    ((aeStart.metaAt (aeStart.cursor + 1)).analogueGain = 1) ∧
    aeIter 3 false true aeStart = .accepted { aeStart with cursor := aeStart.cursor + 2 } ∧
    calcExpParmsAE 5 convState = .ok (resultState (calcExpParmsAE 5 convState) convState) ∧
    (resultState (calcExpParmsAE 5 convState) convState).baseExpTime
      = (resultState (calcExpParmsAE 5 convState) convState).cam.AeExposureTime ∧
    (resultState (calcExpParmsAE 5 convState) convState).cam.aeEnable = false := by
  refine ⟨by decide, by decide,
    claim4_amended.1 3 false aeStart (by decide) (by decide), rfl, ?_, ?_⟩
  · exact (claim4_amended.2 5 convState _ rfl).1
  · exact (claim4_amended.2 5 convState _ rfl).2

/-! ### Supporting lemmas: command dispatch -/

/-- The dispatch table's keys, in order, are exactly `allCodes`. -/
theorem cmdTable_keys (bFn : ℚ → ℤ → ℤ → ℤ → ℤ → ℤ → ℤ) (fuel : ℕ) :
    (cmdTable bFn fuel).map Prod.fst = allCodes := rfl

/-- A character outside `allCodes` matches no table entry. -/
theorem cmdTable_find?_none (bFn : ℚ → ℤ → ℤ → ℤ → ℤ → ℤ → ℤ) (fuel : ℕ)
    (cmd : Char) (h : cmd ∉ allCodes) :
    (cmdTable bFn fuel).find? (fun p => p.1 == cmd) = none := by
  apply List.find?_eq_none.mpr
  intro p hp
  have hk : p.1 ∈ allCodes := by
    rw [← cmdTable_keys bFn fuel]
    exact List.mem_map_of_mem Prod.fst hp
  simp only [beq_iff_eq]
  intro hc
  exact h (hc ▸ hk)

/-- A list with no newline characters is unchanged by the
newline-stripping filter. -/
theorem filter_nl_eq_self (arg : List Char) (h : '\n' ∉ arg) :
    arg.filter (fun c => c ≠ '\n') = arg := by
  apply List.filter_eq_self.mpr
  intro a ha
  simp only [ne_eq, decide_not, Bool.not_eq_eq_eq_not, Bool.not_true, decide_eq_false_iff_not]
  intro hc
  exact h (hc ▸ ha)

/-! ### Claim C5 -/

/-- Claim C5, counterexample: the malformed command line consisting of
a bare newline is not fatal according to the claim, but the code
raises: `"\n"` is nonempty, so it passes the empty check, the newline
strip leaves the empty string, and `cmdstr[0]` raises `IndexError` —
which `run` catches by shutting the whole session down. -/
theorem claim5_cex :
    processCmd sampleBFn 1 ['\n'] sampleState = PyRes.exn .indexError := rfl

/-- Claim C5, amended: a command line whose code character is unknown
leaves all session state unchanged except for exactly one log line and
never raises; but a *malformed* command is not safe — a line whose
newline-stripped content is empty raises `IndexError`, and a known
code with an unparsable numeric argument raises `ValueError`, either
of which ends the session. -/
theorem claim5_amended (bFn : ℚ → ℤ → ℤ → ℤ → ℤ → ℤ → ℤ) (fuel : ℕ)
    (line : List Char) (cmd : Char) (rest : List Char) (s : ServerState)
    (hne : line ≠ [])
    (hfil : line.filter (fun c => c ≠ '\n') = cmd :: rest)
    (hunk : cmd ∉ allCodes) :
    processCmd bFn fuel line s = .ok (logLine s) := by
  unfold processCmd
  rw [if_neg hne, hfil]
  show (match (cmdTable bFn fuel).find? (fun p => p.1 == cmd) with
        | some p => p.2 rest (logLine s)
        | none => PyRes.ok (logLine s)) = PyRes.ok (logLine s)
  rw [cmdTable_find?_none bFn fuel cmd hunk]

/-- Witness for `claim5_amended`: the unknown code `'?'`. -/
theorem claim5_amended_witness :
    (['?'] : List Char) ≠ [] ∧
    (['?'] : List Char).filter (fun c => c ≠ '\n') = ['?'] ∧
    '?' ∉ allCodes ∧
    processCmd sampleBFn 1 ['?'] sampleState = .ok (logLine sampleState) :=
  ⟨by decide, by decide, by decide,
    claim5_amended sampleBFn 1 ['?'] '?' [] sampleState (by decide) (by decide)
      (by decide)⟩

/-! ### Claim C7 -/

/-- Claim C7 (a code bug): when the mode is `off`, `newImage` emits no
image, no telemetry and no motor order — but it is *not* a no-op: the
unconditional tail of the function still increments the frame counter
by one and logs "Sent image", contradicting both the claim and the
code's own comment that `imgcount` counts images taken by the
camera. -/
theorem claim7_off_increments (bFn : ℚ → ℤ → ℤ → ℤ → ℤ → ℤ → ℤ) (fuel : ℕ)
    (s : ServerState) :
    newImage bFn fuel (offMode s)
      = .ok (logLine { offMode s with imgcount := (offMode s).imgcount + 1 }) ∧
    (resultState (newImage bFn fuel (offMode s)) (offMode s)).wire
      = (offMode s).wire ∧
    (resultState (newImage bFn fuel (offMode s)) (offMode s)).frames
      = (offMode s).frames ∧
    (resultState (newImage bFn fuel (offMode s)) (offMode s)).motorOrders
      = (offMode s).motorOrders ∧
    (resultState (newImage bFn fuel (offMode s)) (offMode s)).imgcount
      = (offMode s).imgcount + 1 :=
  ⟨rfl, rfl, rfl, rfl, rfl⟩

/-! ### Claim C10 -/

/-- Claim C10: for the advance-N-frames and reverse-N-frames commands
an empty argument defaults the frame count to 1 — a bare code
character (the line is just the code plus the newline) enqueues a
one-frame order, and a numeric argument `arg` enqueues an order for
`int(arg)` frames, in the corresponding direction. -/
theorem claim10_frame_default :
    (∀ (bFn : ℚ → ℤ → ℤ → ℤ → ℤ → ℤ → ℤ) (fuel : ℕ) (s : ServerState),
        processCmd bFn fuel [Codes.capFrameAdv, '\n'] s
          = .ok (ctrlFwdFrame 1 (logLine s))) ∧
    (∀ (bFn : ℚ → ℤ → ℤ → ℤ → ℤ → ℤ → ℤ) (fuel : ℕ) (s : ServerState)
        (arg : List Char) (n : ℤ), '\n' ∉ arg → pyInt arg = some n →
        processCmd bFn fuel (Codes.capFrameAdv :: arg ++ ['\n']) s
          = .ok (ctrlFwdFrame n (logLine s))) ∧
    (∀ (bFn : ℚ → ℤ → ℤ → ℤ → ℤ → ℤ → ℤ) (fuel : ℕ) (s : ServerState),
        processCmd bFn fuel [Codes.capFrameRev, '\n'] s
          = .ok (ctrlRevFrame 1 (logLine s))) ∧
    (∀ (bFn : ℚ → ℤ → ℤ → ℤ → ℤ → ℤ → ℤ) (fuel : ℕ) (s : ServerState)
        (arg : List Char) (n : ℤ), '\n' ∉ arg → pyInt arg = some n →
        processCmd bFn fuel (Codes.capFrameRev :: arg ++ ['\n']) s
          = .ok (ctrlRevFrame n (logLine s))) := by
  refine ⟨fun bFn fuel s => rfl, ?_, fun bFn fuel s => rfl, ?_⟩
  · intro bFn fuel s arg n hnl hpy
    have hargne : arg ≠ [] := by
      intro he
      rw [he] at hpy
      exact Option.noConfusion hpy
    unfold processCmd
    rw [if_neg (by simp)]
    have hfil : (Codes.capFrameAdv :: arg ++ ['\n']).filter (fun c => c ≠ '\n')
        = Codes.capFrameAdv :: arg := by
      simp [List.filter_cons, List.filter_append, filter_nl_eq_self arg hnl,
        Codes.capFrameAdv]
      exact fun a ha hc => hnl (hc ▸ ha)
    rw [hfil]
    show (if arg = [] then _ else withIntArg arg _ (logLine s)) = _
    rw [if_neg hargne]
    unfold withIntArg
    rw [hpy]
  · intro bFn fuel s arg n hnl hpy
    have hargne : arg ≠ [] := by
      intro he
      rw [he] at hpy
      exact Option.noConfusion hpy
    unfold processCmd
    rw [if_neg (by simp)]
    have hfil : (Codes.capFrameRev :: arg ++ ['\n']).filter (fun c => c ≠ '\n')
        = Codes.capFrameRev :: arg := by
      simp [List.filter_cons, List.filter_append, filter_nl_eq_self arg hnl,
        Codes.capFrameRev]
      exact fun a ha hc => hnl (hc ▸ ha)
    rw [hfil]
    show (if arg = [] then _ else withIntArg arg _ (logLine s)) = _
    rw [if_neg hargne]
    unfold withIntArg
    rw [hpy]

/-! ### Supporting lemmas: the capture path -/

/-- `sendSS` succeeds exactly when the reported frame duration is
nonzero; on success it appends the telemetry record, advances the
metadata cursor, and records the frame rate. -/
theorem sendSS_ok (c : Char) (s s' : ServerState) (h : sendSS c s = .ok s') :
    s' = { s with
      cam := { s.cam with frameRate := frameRateOf (s.metaAt s.cursor) },
      wire := s.wire ++ sendSSItems c (s.metaAt s.cursor),
      cursor := s.cursor + 1 } := by
  unfold sendSS at h
  split at h
  · exact absurd h (by simp)
  · injection h with h
    exact h.symm

/-- On success, `takeAndQueuePhoto` queues exactly one frame with the
given role flag, leaves motor orders, image counter, auto-advance,
bracket count, mode, and busy flag untouched, and writes at most the
colour-gain record (when auto white balance is on) to the wire. -/
theorem takeAndQueue_ok (flag : Char) (s s' : ServerState)
    (h : takeAndQueuePhoto flag s = .ok s') :
    ∃ e, s'.frames = s.frames ++ [(flag, e)] ∧
      s'.motorOrders = s.motorOrders ∧
      s'.imgcount = s.imgcount ∧
      s'.autoAdvance = s.autoAdvance ∧
      s'.cam.bracketing = s.cam.bracketing ∧
      s'.cam.mode = s.cam.mode ∧
      s'.capEvent = s.capEvent ∧
      s'.wire = s.wire ++
        (if s.cam.awb then sendGainsItems (s.metaAt s.cursor) else []) ∧
      s'.cam.autoExp = s.cam.autoExp := by
  unfold takeAndQueuePhoto at h
  cases hmode : s.cam.mode with
  | off =>
      rw [hmode] at h
      exact absurd h (by simp)
  | previewing =>
      rw [hmode] at h
      simp only [] at h
      split at h
      · exact absurd h (by simp)
      · by_cases ha : s.cam.awb
        · rw [if_pos ha] at h
          injection h with h
          subst h
          refine ⟨(s.metaAt (s.cursor + 1)).exposureTime,
            ?_, ?_, ?_, ?_, ?_, ?_, ?_, ?_, ?_⟩ <;>
            simp [sendGains, captureMetadata, logLine, ha, hmode]
        · rw [if_neg ha] at h
          injection h with h
          subst h
          refine ⟨(s.metaAt s.cursor).exposureTime,
            ?_, ?_, ?_, ?_, ?_, ?_, ?_, ?_, ?_⟩ <;>
            simp [sendGains, captureMetadata, logLine, ha, hmode]
  | capturing =>
      rw [hmode] at h
      simp only [] at h
      split at h
      · exact absurd h (by simp)
      · by_cases ha : s.cam.awb
        · rw [if_pos ha] at h
          injection h with h
          subst h
          refine ⟨(s.metaAt (s.cursor + 1)).exposureTime,
            ?_, ?_, ?_, ?_, ?_, ?_, ?_, ?_, ?_⟩ <;>
            simp [sendGains, captureMetadata, logLine, ha, hmode]
        · rw [if_neg ha] at h
          injection h with h
          subst h
          refine ⟨(s.metaAt s.cursor).exposureTime,
            ?_, ?_, ?_, ?_, ?_, ?_, ?_, ?_, ?_⟩ <;>
            simp [sendGains, captureMetadata, logLine, ha, hmode]

/-- `Tame` is transitive. -/
theorem tame_trans {s t u : ServerState} (h1 : Tame s t) (h2 : Tame t u) :
    Tame s u := by
  obtain ⟨a1, a2, a3, a4, a5, a6, a7, a8⟩ := h1
  obtain ⟨b1, b2, b3, b4, b5, b6, b7, b8⟩ := h2
  exact ⟨b1.trans a1, b2.trans a2, b3.trans a3, b4.trans a4, b5.trans a5,
    b6.trans a6, b7.trans a7, b8.trans a8⟩

/-- The retry loop only advances the metadata cursor. -/
theorem retryLoop_eq (n : ℕ) (t : ℤ) (s : ServerState) :
    ∃ k, retryLoop n t s = { s with cursor := s.cursor + k } := by
  induction n generalizing s with
  | zero => exact ⟨0, rfl⟩
  | succ n ih =>
      rw [retryLoop]
      split
      · exact ⟨1, rfl⟩
      · obtain ⟨k, hk⟩ := ih { s with cursor := s.cursor + 1 }
        exact ⟨1 + k, by rw [hk, Nat.add_assoc]⟩

/-- A successful inner stabilization only advances the metadata
cursor. -/
theorem aeStab_some (f : ℕ) (s t : ServerState) (h : aeStab f s = some t) :
    ∃ k, t = { s with cursor := s.cursor + k } := by
  induction f generalizing s with
  | zero =>
      rw [aeStab] at h
      split at h
      · exact ⟨1, by injection h with h; exact h.symm⟩
      · exact absurd h (by simp)
  | succ f ih =>
      rw [aeStab] at h
      split at h
      · exact ⟨1, by injection h with h; exact h.symm⟩
      · obtain ⟨k, hk⟩ := ih _ h
        exact ⟨1 + k, by rw [hk, Nat.add_assoc]⟩

/-- A continuing decision step touches neither the frame queue, the
motor queue, the counters, nor the wire. -/
theorem aeDecide_next (a1 a2 b1 b2 : Bool) (t u : ServerState)
    (h : aeDecide a1 a2 t = .next b1 b2 u) :
    Tame t u ∧ u.wire = t.wire := by
  unfold aeDecide at h
  split at h
  · exact absurd h (by simp)
  · split at h
    · injection h with e1 e2 e3
      subst e3
      simp [Tame, setCtrlExp, setAeTime]
    · split at h
      · injection h with e1 e2 e3
        subst e3
        simp [Tame, setCtrlExp, setAeTime]
      · injection h with e1 e2 e3
        subst e3
        simp [Tame]

/-- An accepting decision step touches neither the frame queue, the
motor queue, the counters, nor the wire. -/
theorem aeDecide_accepted (a1 a2 : Bool) (t u : ServerState)
    (h : aeDecide a1 a2 t = .accepted u) :
    Tame t u ∧ u.wire = t.wire := by
  unfold aeDecide at h
  split at h
  · injection h with e1
    subst e1
    simp [Tame]
  · split at h
    · exact absurd h (by simp)
    · split at h
      · exact absurd h (by simp)
      · exact absurd h (by simp)

/-- A continuing decision iteration touches neither the frame queue,
the motor queue, the counters, nor the wire. -/
theorem aeIter_next (f : ℕ) (a1 a2 b1 b2 : Bool) (s t : ServerState)
    (h : aeIter f a1 a2 s = .next b1 b2 t) :
    Tame s t ∧ t.wire = s.wire := by
  unfold aeIter at h
  cases hst : aeStab f s with
  | none =>
      rw [hst] at h
      exact absurd h (by simp)
  | some u =>
      rw [hst] at h
      have hd : aeDecide a1 a2 u = .next b1 b2 t := h
      obtain ⟨k, hk⟩ := aeStab_some f s u hst
      obtain ⟨ht, hwire⟩ := aeDecide_next a1 a2 b1 b2 u t hd
      subst hk
      refine ⟨tame_trans ?_ ht, by simp [hwire]⟩
      simp [Tame]

/-- An accepting decision iteration touches neither the frame queue,
the motor queue, the counters, nor the wire. -/
theorem aeIter_accepted (f : ℕ) (a1 a2 : Bool) (s t : ServerState)
    (h : aeIter f a1 a2 s = .accepted t) :
    Tame s t ∧ t.wire = s.wire := by
  unfold aeIter at h
  cases hst : aeStab f s with
  | none =>
      rw [hst] at h
      exact absurd h (by simp)
  | some u =>
      rw [hst] at h
      have hd : aeDecide a1 a2 u = .accepted t := h
      obtain ⟨k, hk⟩ := aeStab_some f s u hst
      obtain ⟨ht, hwire⟩ := aeDecide_accepted a1 a2 u t hd
      subst hk
      refine ⟨tame_trans ?_ ht, by simp [hwire]⟩
      simp [Tame]

/-- A converging autoexposure loop touches neither the frame queue,
the motor queue, the counters, nor the wire. -/
theorem aeLoop_ok (f : ℕ) (a1 a2 : Bool) (s t : ServerState)
    (h : aeLoop f a1 a2 s = .ok t) :
    Tame s t ∧ t.wire = s.wire := by
  induction f generalizing a1 a2 s with
  | zero => exact absurd h (by simp [aeLoop])
  | succ f ih =>
      rw [aeLoop] at h
      cases hit : aeIter (f + 1) a1 a2 s with
      | accepted u =>
          rw [hit] at h
          injection h with h
          subst h
          exact aeIter_accepted _ _ _ _ _ hit
      | next b1 b2 u =>
          rw [hit] at h
          obtain ⟨ht1, hw1⟩ := aeIter_next _ _ _ _ _ _ _ hit
          obtain ⟨ht2, hw2⟩ := ih b1 b2 u h
          exact ⟨tame_trans ht1 ht2, hw2.trans hw1⟩
      | stuckInner =>
          rw [hit] at h
          exact absurd h (by simp)

/-- A returning `calcExpParmsAE` run touches neither the frame queue,
the motor queue, the counters, nor the wire. -/
theorem calc_quiet (fuel : ℕ) (s t : ServerState)
    (h : calcExpParmsAE fuel s = .ok t) :
    Tame s t ∧ t.wire = s.wire := by
  unfold calcExpParmsAE at h
  cases hv : aeLoop fuel false false (calcPre s) with
  | ok v =>
      rw [hv] at h
      simp only [PyRes.bind, PyRes.ok.injEq] at h
      subst h
      obtain ⟨ht, hw⟩ := aeLoop_ok _ _ _ _ _ hv
      have hpre : Tame s (calcPre s) ∧ (calcPre s).wire = s.wire := by
        simp [Tame, calcPre, setCtrlExp, setAeTime]
      have hpost : Tame v (calcPost v) ∧ (calcPost v).wire = v.wire := by
        simp [Tame, calcPost, logLine, captureMetadata]
      exact ⟨tame_trans (tame_trans hpre.1 ht) hpost.1,
        (hpost.2.trans hw).trans hpre.2⟩
  | exn e =>
      rw [hv] at h
      simp [PyRes.bind] at h
  | hang =>
      rw [hv] at h
      simp [PyRes.bind] at h

/-- On success, one bracket-shot body queues exactly one frame with
the role flag determined by the bracket count and shot number, leaves
motor orders, image counter, auto-advance, bracket count, mode and
busy flag untouched, and its wire delta is one full `'f'`-flagged
telemetry record followed (possibly) by a colour-gain record. -/
theorem shotBody_ok (bFn : ℚ → ℤ → ℤ → ℤ → ℤ → ℤ → ℤ) (shot : ℤ)
    (s s' : ServerState) (h : shotBody bFn shot s = .ok s') :
    (∃ e, s'.frames = s.frames ++ [(shotFlag s.cam.bracketing shot, e)]) ∧
    s'.motorOrders = s.motorOrders ∧
    s'.imgcount = s.imgcount ∧
    s'.autoAdvance = s.autoAdvance ∧
    s'.cam.bracketing = s.cam.bracketing ∧
    s'.cam.mode = s.cam.mode ∧
    s'.capEvent = s.capEvent ∧
    (∃ m rest, s'.wire = s.wire ++ sendSSItems 'f' m ++ rest) := by
  unfold shotBody at h
  obtain ⟨k, hk⟩ := retryLoop_eq s.numOfRetries
    (bFn s.cam.stops shot s.cam.bracketing s.cam.exposureTime
      s.cam.minExpTime s.cam.maxExpTime)
    (setCtrlExp s
      (bFn s.cam.stops shot s.cam.bracketing s.cam.exposureTime
        s.cam.minExpTime s.cam.maxExpTime))
  rw [hk] at h
  cases hss : sendSS 'f'
      { setCtrlExp s
          (bFn s.cam.stops shot s.cam.bracketing s.cam.exposureTime
            s.cam.minExpTime s.cam.maxExpTime) with
        cursor := (setCtrlExp s
          (bFn s.cam.stops shot s.cam.bracketing s.cam.exposureTime
            s.cam.minExpTime s.cam.maxExpTime)).cursor + k } with
  | exn e =>
      rw [hss] at h
      exact absurd h (by simp [PyRes.bind])
  | hang =>
      rw [hss] at h
      exact absurd h (by simp [PyRes.bind])
  | ok w =>
      rw [hss] at h
      have hw := sendSS_ok _ _ _ hss
      simp only [PyRes.bind] at h
      split at h
      · exact absurd h (by simp)
      · cases htq : takeAndQueuePhoto (shotFlag w.cam.bracketing shot) w with
        | exn e =>
            rw [htq] at h
            exact absurd h (by simp [PyRes.bind])
        | hang =>
            rw [htq] at h
            exact absurd h (by simp [PyRes.bind])
        | ok u =>
            rw [htq] at h
            simp only [PyRes.bind, PyRes.ok.injEq] at h
            subst h
            obtain ⟨e, hf, ho, hc, ha, hb, hm, hcap, hwire, hax⟩ :=
              takeAndQueue_ok _ _ _ htq
            have hwb : w.cam.bracketing = s.cam.bracketing := by
              rw [hw]
              simp [setCtrlExp]
            rw [hwb] at hf
            refine ⟨⟨e, ?_⟩, ?_, ?_, ?_, ?_, ?_, ?_,
              ⟨(s.metaAt ((setCtrlExp s
                  (bFn s.cam.stops shot s.cam.bracketing s.cam.exposureTime
                    s.cam.minExpTime s.cam.maxExpTime)).cursor + k)),
               (if w.cam.awb then sendGainsItems (w.metaAt w.cursor) else []),
               ?_⟩⟩
            all_goals simp only [logLine, exposureInfo, captureMetadata]
            · rw [hf, hw]
              simp [setCtrlExp]
            · rw [ho, hw]
              simp [setCtrlExp]
            · rw [hc, hw]
              simp [setCtrlExp]
            · rw [ha, hw]
              simp [setCtrlExp]
            · rw [hb, hw]
              simp [setCtrlExp]
            · rw [hm, hw]
              simp [setCtrlExp]
            · rw [hcap, hw]
              simp [setCtrlExp]
            · rw [hwire, hw]
              simp [setCtrlExp, List.append_assoc]

/-- A single-shot loop is just one shot body. -/
theorem shotLoop_one (bFn : ℚ → ℤ → ℤ → ℤ → ℤ → ℤ → ℤ) (first : ℤ)
    (s : ServerState) :
    shotLoop bFn 1 first s = shotBody bFn first s := by
  rw [shotLoop]
  cases shotBody bFn first s <;> rfl

/-- Associativity of `PyRes` sequencing. -/
theorem pyBind_assoc {α β γ : Type} (x : PyRes α) (f : α → PyRes β)
    (g : β → PyRes γ) :
    (x.bind f).bind g = x.bind (fun a => (f a).bind g) := by
  cases x <;> rfl

/-- Reduction of `newImage` in capturing mode. -/
theorem newImage_capturing (bFn : ℚ → ℤ → ℤ → ℤ → ℤ → ℤ → ℤ) (fuel : ℕ)
    (s : ServerState) (hmode : s.cam.mode = .capturing) :
    newImage bFn fuel s = (newImageCapture bFn fuel s).bind
      (fun t => .ok (logLine { t with imgcount := t.imgcount + 1 })) := by
  unfold newImage
  rw [hmode]

/-- Reduction of `newImage` in previewing mode. -/
theorem newImage_previewing (bFn : ℚ → ℤ → ℤ → ℤ → ℤ → ℤ → ℤ) (fuel : ℕ)
    (s : ServerState) (hmode : s.cam.mode = .previewing) :
    newImage bFn fuel s = (newImagePreview s).bind
      (fun t => .ok (logLine { t with imgcount := t.imgcount + 1 })) := by
  unfold newImage
  rw [hmode]

/-- The post-exposure part of a returning single-shot capture: one
`'s'`-flagged frame queued, counter up by one, and the auto-advance
order exactly when the flag is set. -/
theorem capture_tail6 (bFn : ℚ → ℤ → ℤ → ℤ → ℤ → ℤ → ℤ) (t s' : ServerState)
    (hbkt : t.cam.bracketing = 1)
    (h : PyRes.bind
        (if (setCtrlExp t t.cam.exposureTime).capEvent then .hang
         else
           (shotLoop bFn
             (max 0 (setCtrlExp t t.cam.exposureTime).cam.bracketing).toNat 1
             (setCtrlExp t t.cam.exposureTime)).bind fun u =>
             if u.autoAdvance then
               .ok { u with motorOrders := u.motorOrders ++ [.fwd 1] }
             else .ok u)
        (fun v => .ok (logLine { v with imgcount := v.imgcount + 1 }))
        = .ok s') :
    (∃ e, s'.frames = t.frames ++ [('s', e)]) ∧
    s'.imgcount = t.imgcount + 1 ∧
    (t.autoAdvance = true → s'.motorOrders = t.motorOrders ++ [.fwd 1]) ∧
    (t.autoAdvance = false → s'.motorOrders = t.motorOrders) := by
  split at h
  · exact absurd h (by simp [PyRes.bind])
  · have hwbkt : (setCtrlExp t t.cam.exposureTime).cam.bracketing = 1 := by
      simp [setCtrlExp, hbkt]
    rw [hwbkt] at h
    rw [show (max 0 (1 : ℤ)).toNat = 1 from rfl] at h
    rw [shotLoop_one] at h
    rw [pyBind_assoc] at h
    cases hsb : shotBody bFn 1 (setCtrlExp t t.cam.exposureTime) with
    | exn e =>
        rw [hsb] at h
        exact absurd h (by simp [PyRes.bind])
    | hang =>
        rw [hsb] at h
        exact absurd h (by simp [PyRes.bind])
    | ok u =>
        rw [hsb] at h
        simp only [PyRes.bind] at h
        obtain ⟨⟨e, hf⟩, ho, hc, hadv, hb, hm, hcap2, hwire⟩ :=
          shotBody_ok bFn 1 _ u hsb
        rw [hwbkt] at hf
        rw [show shotFlag 1 1 = 's' from rfl] at hf
        have hwf : (setCtrlExp t t.cam.exposureTime).frames = t.frames := rfl
        have hwc : (setCtrlExp t t.cam.exposureTime).imgcount = t.imgcount := rfl
        have hwa : (setCtrlExp t t.cam.exposureTime).autoAdvance = t.autoAdvance := rfl
        have hwo : (setCtrlExp t t.cam.exposureTime).motorOrders = t.motorOrders := rfl
        cases haa : u.autoAdvance with
        | true =>
            rw [haa] at h
            simp only [if_true] at h
            injection h with h
            subst h
            refine ⟨⟨e, ?_⟩, ?_, ?_, ?_⟩
            · simp only [logLine]
              rw [hf, hwf]
            · simp only [logLine]
              rw [hc, hwc]
            · intro ht
              simp only [logLine]
              rw [ho, hwo]
            · intro ht
              rw [hadv, hwa, ht] at haa
              exact absurd haa (by simp)
        | false =>
            rw [haa] at h
            rw [if_neg (by simp)] at h
            injection h with h
            subst h
            refine ⟨⟨e, ?_⟩, ?_, ?_, ?_⟩
            · simp only [logLine]
              rw [hf, hwf]
            · simp only [logLine]
              rw [hc, hwc]
            · intro ht
              rw [hadv, hwa, ht] at haa
              exact absurd haa (by simp)
            · intro ht
              simp only [logLine]
              rw [ho, hwo]

/-! ### Claim C6 -/

/-- Claim C6: whenever a capture request with bracket count 1 in
capturing mode returns, exactly one frame with role flag `'s'` is
queued for transmission, the frame counter increments by exactly one,
and exactly one forward-one-frame motor order is enqueued when
auto-advance is set (and none when it is not). -/
theorem claim6_single_capture (bFn : ℚ → ℤ → ℤ → ℤ → ℤ → ℤ → ℤ) (fuel : ℕ)
    (s s' : ServerState)
    (hmode : s.cam.mode = .capturing) (hbkt : s.cam.bracketing = 1)
    (hrun : newImage bFn fuel s = .ok s') :
    (∃ e, s'.frames = s.frames ++ [('s', e)]) ∧
    s'.imgcount = s.imgcount + 1 ∧
    (s.autoAdvance = true → s'.motorOrders = s.motorOrders ++ [.fwd 1]) ∧
    (s.autoAdvance = false → s'.motorOrders = s.motorOrders) := by
  rw [newImage_capturing bFn fuel s hmode] at hrun
  unfold newImageCapture at hrun
  rw [pyBind_assoc] at hrun
  cases hae : s.cam.autoExp with
  | false =>
      rw [if_neg (by simp [hae])] at hrun
      simp only [PyRes.bind] at hrun
      exact capture_tail6 bFn
        { s with cam := { s.cam with exposureTime := s.cam.ManExposureTime } }
        s' hbkt hrun
  | true =>
      rw [if_pos hae] at hrun
      rw [pyBind_assoc] at hrun
      cases hcalc : calcExpParmsAE fuel s with
      | exn e =>
          rw [hcalc] at hrun
          exact absurd hrun (by simp [PyRes.bind])
      | hang =>
          rw [hcalc] at hrun
          exact absurd hrun (by simp [PyRes.bind])
      | ok v =>
          rw [hcalc] at hrun
          simp only [PyRes.bind] at hrun
          obtain ⟨hTv, hWv⟩ := calc_quiet fuel s v hcalc
          obtain ⟨hvf, hvo, hvc, hva, hvb, hvm, hvcap, hvp⟩ := hTv
          cases hss : sendSS 'e'
              { v with cam := { v.cam with exposureTime := v.cam.AeExposureTime } } with
          | exn e =>
              rw [hss] at hrun
              exact absurd hrun (by simp [PyRes.bind])
          | hang =>
              rw [hss] at hrun
              exact absurd hrun (by simp [PyRes.bind])
          | ok w =>
              rw [hss] at hrun
              simp only [PyRes.bind] at hrun
              have hw := sendSS_ok _ _ _ hss
              have hwbkt : w.cam.bracketing = 1 := by
                rw [hw]
                simpa using hvb.trans hbkt
              obtain ⟨⟨e, hf⟩, hcnt, himp1, himp2⟩ :=
                capture_tail6 bFn w s' hwbkt hrun
              have hwf : w.frames = s.frames := by
                rw [hw]
                simpa using hvf
              have hwc : w.imgcount = s.imgcount := by
                rw [hw]
                simpa using hvc
              have hwa : w.autoAdvance = s.autoAdvance := by
                rw [hw]
                simpa using hva
              have hwo : w.motorOrders = s.motorOrders := by
                rw [hw]
                simpa using hvo
              refine ⟨⟨e, by rw [hf, hwf]⟩, by rw [hcnt, hwc], ?_, ?_⟩
              · intro ht
                rw [himp1 (by rw [hwa]; exact ht), hwo]
              · intro ht
                rw [himp2 (by rw [hwa]; exact ht), hwo]

/-- Witness for `claim6_single_capture`: a concrete single-shot
capture run with auto-advance off. -/
theorem claim6_single_capture_witness :
    capState.cam.mode = .capturing ∧
    capState.cam.bracketing = 1 ∧
    newImage sampleBFn 1 capState
      = .ok (resultState (newImage sampleBFn 1 capState) capState) ∧
    ((∃ e, (resultState (newImage sampleBFn 1 capState) capState).frames
        = capState.frames ++ [('s', e)]) ∧
     (resultState (newImage sampleBFn 1 capState) capState).imgcount
        = capState.imgcount + 1 ∧
     (capState.autoAdvance = true →
        (resultState (newImage sampleBFn 1 capState) capState).motorOrders
          = capState.motorOrders ++ [.fwd 1]) ∧
     (capState.autoAdvance = false →
        (resultState (newImage sampleBFn 1 capState) capState).motorOrders
          = capState.motorOrders)) :=
  ⟨rfl, rfl, rfl,
    claim6_single_capture sampleBFn 1 capState _ rfl rfl rfl⟩

/-! ### Claim C8 -/

/-- Claim C8, counterexample: in a concrete single-shot capture run
the telemetry record emitted before the shot is flagged `'f'`, not
`'e'` (line 448 of the source passes `"f"` to `sendSS`), and no
`'e'`-flagged record appears on the wire at all. -/
theorem claim8_cex :
    (wireOf (newImage sampleBFn 1 capState)).head? = some (WireItem.flagB 'f') ∧
    WireItem.flagB 'e' ∉ wireOf (newImage sampleBFn 1 capState) ∧
    'f' ≠ 'e' :=
  ⟨rfl, by decide, by decide⟩

/-- Claim C8, amended: every exposure-telemetry record written by
`sendSS` carries a flag byte followed by the int32 LE exposure time,
float32 LE analogue gain, float32 LE digital gain, and float32 LE
frame rate — but the flag byte is the one chosen at the call site:
the record emitted before each capture shot carries `'f'`, while the
preview/autoexposure records carry `'e'`. -/
theorem claim8_amended :
    (∀ (c : Char) (s s' : ServerState), sendSS c s = .ok s' →
        s'.wire = s.wire ++
          [WireItem.flagB c,
           WireItem.i32 (s.metaAt s.cursor).exposureTime,
           WireItem.f32 (roundPy (s.metaAt s.cursor).analogueGain 2),
           WireItem.f32 (roundPy (s.metaAt s.cursor).digitalGain 2),
           WireItem.f32 (roundPy (frameRateOf (s.metaAt s.cursor)) 1),
           WireItem.flushW]) ∧
    (∀ (bFn : ℚ → ℤ → ℤ → ℤ → ℤ → ℤ → ℤ) (shot : ℤ) (s s' : ServerState),
        shotBody bFn shot s = .ok s' →
        ∃ m rest, s'.wire = s.wire ++ sendSSItems 'f' m ++ rest) ∧
    (∀ (bFn : ℚ → ℤ → ℤ → ℤ → ℤ → ℤ → ℤ) (fuel : ℕ) (s s' : ServerState),
        s.cam.mode = .previewing → s.cam.autoExp = true → s.cam.awb = false →
        newImage bFn fuel s = .ok s' →
        ∃ m, s'.wire = s.wire ++ sendSSItems 'e' m) := by
  refine ⟨?_, ?_, ?_⟩
  · intro c s s' h
    rw [sendSS_ok c s s' h]
    rfl
  · intro bFn shot s s' h
    exact (shotBody_ok bFn shot s s' h).2.2.2.2.2.2.2
  · intro bFn fuel s s' hmode hae hawb hrun
    rw [newImage_previewing bFn fuel s hmode] at hrun
    unfold newImagePreview at hrun
    rw [pyBind_assoc] at hrun
    cases htq : takeAndQueuePhoto 'p' (setCtrlExp s s.cam.ManExposureTime) with
    | exn e =>
        rw [htq] at hrun
        exact absurd hrun (by simp [PyRes.bind])
    | hang =>
        rw [htq] at hrun
        exact absurd hrun (by simp [PyRes.bind])
    | ok u =>
        rw [htq] at hrun
        simp only [PyRes.bind] at hrun
        obtain ⟨e, hf, ho, hc, ha, hb, hm, hcap, hwire, hax⟩ :=
          takeAndQueue_ok _ _ _ htq
        have huw : u.wire = s.wire := by
          rw [hwire]
          simp [setCtrlExp, hawb]
        have huae : u.cam.autoExp = true := by
          rw [hax]
          simpa [setCtrlExp] using hae
        rw [if_pos huae] at hrun
        cases hss : sendSS 'e' u with
        | exn e2 =>
            rw [hss] at hrun
            exact absurd hrun (fun hcontra => PyRes.noConfusion hcontra)
        | hang =>
            rw [hss] at hrun
            exact absurd hrun (fun hcontra => PyRes.noConfusion hcontra)
        | ok w =>
            rw [hss] at hrun
            have hrun2 : PyRes.ok (logLine { logLine (exposureInfo w) with
                imgcount := (logLine (exposureInfo w)).imgcount + 1 }) = .ok s' := hrun
            injection hrun2 with hrun2
            subst hrun2
            refine ⟨u.metaAt u.cursor, ?_⟩
            show w.wire = s.wire ++ sendSSItems 'e' (u.metaAt u.cursor)
            rw [sendSS_ok 'e' u w hss]
            show u.wire ++ sendSSItems 'e' (u.metaAt u.cursor)
              = s.wire ++ sendSSItems 'e' (u.metaAt u.cursor)
            rw [huw]

/-- Witness for `claim8_amended`: concrete telemetry writes — the
general record layout on a concrete `sendSS` call, the `'f'` flag on a
concrete capture shot, and the `'e'` flag on a concrete preview with
autoexposure telemetry. -/
theorem claim8_amended_witness :
    sendSS 'f' capState = .ok (resultState (sendSS 'f' capState) capState) ∧
    (resultState (sendSS 'f' capState) capState).wire = capState.wire ++
      [WireItem.flagB 'f',
       WireItem.i32 (capState.metaAt capState.cursor).exposureTime,
       WireItem.f32 (roundPy (capState.metaAt capState.cursor).analogueGain 2),
       WireItem.f32 (roundPy (capState.metaAt capState.cursor).digitalGain 2),
       WireItem.f32 (roundPy (frameRateOf (capState.metaAt capState.cursor)) 1),
       WireItem.flushW] ∧
    (∃ m rest, (resultState (shotBody sampleBFn 1 capState) capState).wire
      = capState.wire ++ sendSSItems 'f' m ++ rest) ∧
    (∃ m, (resultState (newImage sampleBFn 1 prevState) prevState).wire
      = prevState.wire ++ sendSSItems 'e' m) :=
  ⟨rfl,
    claim8_amended.1 'f' capState _ rfl,
    claim8_amended.2.1 sampleBFn 1 capState _ rfl,
    claim8_amended.2.2 sampleBFn 1 prevState _ rfl rfl rfl rfl⟩

/-! ### Supporting lemmas: the connection lock -/

/-- A write is only valid while holding the lock. -/
theorem wlAux_write {b : Bool} {w : WireItem} {r : List Evt}
    (h : wlAux b (.write w :: r) = true) : b = true ∧ wlAux true r = true := by
  cases b
  · exact absurd h (by simp [wlAux])
  · exact ⟨rfl, h⟩

/-- Every `with connectionLock:` block produces a well-locked event
program. -/
theorem withLockTrace_wellLocked (items : List WireItem) :
    wellLocked (withLockTrace items) := by
  unfold wellLocked withLockTrace
  show wlAux true (items.map .write ++ [.release]) = true
  induction items with
  | nil => rfl
  | cons x xs ih => exact ih

/-- The invariant is preserved by every interleaving step. -/
theorem step_inv {s : Sys} {l : ℕ × Evt} {s' : Sys}
    (hinv : SysInv s) (hstep : Step s l s') : SysInv s' := by
  cases hstep with
  | @acq i r hlock hprog =>
      intro j p hj
      have hlt : i < s.progs.length := (List.get?_eq_some.mp hprog).1
      by_cases hij : j = i
      · subst hij
        rw [List.get?_set_eq_of_lt _ hlt] at hj
        injection hj with hj
        subst hj
        have := hinv j _ hprog
        rw [hlock] at this
        simpa [wlAux] using this
      · rw [List.get?_set_ne _ _ (fun he => hij he.symm)] at hj
        have hthis := hinv j p hj
        rw [hlock] at hthis
        have hbeq : ((some i : Option ℕ) == some j) = false :=
          beq_eq_false_iff_ne.mpr
            (fun he => hij (Option.some.inj he).symm)
        show wlAux ((some i : Option ℕ) == some j) p = true
        rw [hbeq]
        exact hthis
  | @rel i r hlock hprog =>
      intro j p hj
      have hlt : i < s.progs.length := (List.get?_eq_some.mp hprog).1
      by_cases hij : j = i
      · subst hij
        rw [List.get?_set_eq_of_lt _ hlt] at hj
        injection hj with hj
        subst hj
        have := hinv j _ hprog
        rw [hlock] at this
        simpa [wlAux] using this
      · rw [List.get?_set_ne _ _ (fun he => hij he.symm)] at hj
        have hthis := hinv j p hj
        rw [hlock] at hthis
        have hbeq : ((some i : Option ℕ) == some j) = false :=
          beq_eq_false_iff_ne.mpr
            (fun he => hij (Option.some.inj he).symm)
        rw [hbeq] at hthis
        show wlAux ((none : Option ℕ) == some j) p = true
        exact hthis
  | @wr i w r hprog =>
      intro j p hj
      have hlt : i < s.progs.length := (List.get?_eq_some.mp hprog).1
      by_cases hij : j = i
      · subst hij
        rw [List.get?_set_eq_of_lt _ hlt] at hj
        injection hj with hj
        subst hj
        have := hinv j _ hprog
        obtain ⟨hb, hr⟩ := wlAux_write this
        rw [hb]
        exact hr
      · rw [List.get?_set_ne _ _ (fun he => hij he.symm)] at hj
        exact hinv j p hj

/-- Under the invariant, a thread can only write while it owns the
connection lock. -/
theorem write_locked {s : Sys} {i : ℕ} {w : WireItem} {s' : Sys}
    (hinv : SysInv s) (hstep : Step s (i, .write w) s') : s.lock = some i := by
  cases hstep with
  | @wr _ _ r hprog =>
      have := hinv i _ hprog
      obtain ⟨hb, _⟩ := wlAux_write this
      exact eq_of_beq hb

/-- In any execution from an invariant-satisfying system, every write
step is taken while its thread owns the lock. -/
theorem steps_write_locked {s0 : Sys} {tr : List (ℕ × Evt)} {s1 : Sys}
    (hsteps : Steps s0 tr s1) :
    SysInv s0 →
    ∀ (pre post : List (ℕ × Evt)) (i : ℕ) (w : WireItem),
      tr = pre ++ (i, Evt.write w) :: post →
      ∃ sm, Steps s0 pre sm ∧ sm.lock = some i := by
  induction hsteps with
  | nil =>
      intro hinv pre post i w h
      exact absurd h (by cases pre <;> simp)
  | @cons s s' s'' l tr hstep hrest ih =>
      intro hinv pre post i w h
      cases pre with
      | nil =>
          simp only [List.nil_append, List.cons.injEq] at h
          obtain ⟨h1, h2⟩ := h
          subst h1
          exact ⟨s, Steps.nil, write_locked hinv hstep⟩
      | cons l0 pre' =>
          simp only [List.cons_append, List.cons.injEq] at h
          obtain ⟨h1, h2⟩ := h
          subst h1
          obtain ⟨sm, hsm, hlock⟩ := ih (step_inv hinv hstep) pre' post i w h2
          exact ⟨sm, Steps.cons hstep hsm, hlock⟩

/-! ### Claim C1 -/

/-- Claim C1: (a) every writer of the outbound binary channel in the
source — the session thread's `sendSS`, `sendGains`, `sendLightOn`,
`sendLightOff`, `infExitClient` and `exit` notices, each pool worker's
frame send, and (modelled from the spec) the hardware-control
process's notices — is a well-locked event program: all of its writes
happen between its acquire and release of the single connection lock;
(b) consequently, in every interleaved execution of well-locked
programs that starts with the lock free, each write on the channel is
performed while the connection lock is owned by the writing thread —
and since the lock is a single cell, there is at most one writer at
any instant, so no frame is interleaved with another writer's. -/
theorem claim1_lock_discipline :
    ((∀ (c : Char) (m : Meta), wellLocked (sendSSTrace c m)) ∧
     (∀ m : Meta, wellLocked (sendGainsTrace m)) ∧
     wellLocked sendLightOnTrace ∧
     wellLocked sendLightOffTrace ∧
     wellLocked infExitClientTrace ∧
     wellLocked exitNoticeTrace ∧
     (∀ (flag : Char) (exp : ℤ) (size : ℕ),
        wellLocked (streamerSendTrace flag exp size)) ∧
     (∀ w : WireItem, wellLocked (motorNoticeTrace w))) ∧
    (∀ (s0 : Sys) (tr : List (ℕ × Evt)) (s1 : Sys),
      s0.lock = none →
      (∀ i p, s0.progs.get? i = some p → wellLocked p) →
      Steps s0 tr s1 →
      ∀ (pre post : List (ℕ × Evt)) (i : ℕ) (w : WireItem),
        tr = pre ++ (i, Evt.write w) :: post →
        ∃ sm, Steps s0 pre sm ∧ sm.lock = some i) := by
  constructor
  · exact ⟨fun c m => withLockTrace_wellLocked _,
      fun m => withLockTrace_wellLocked _,
      withLockTrace_wellLocked _,
      withLockTrace_wellLocked _,
      withLockTrace_wellLocked _,
      withLockTrace_wellLocked _,
      fun flag exp size => withLockTrace_wellLocked _,
      fun w => withLockTrace_wellLocked _⟩
  · intro s0 tr s1 hlock hwl hsteps pre post i w h
    have hinv : SysInv s0 := by
      intro i p hp
      rw [hlock]
      exact hwl i p hp
    exact steps_write_locked hsteps hinv pre post i w h

/-- Witness for `claim1_lock_discipline`: a concrete two-step
execution of the one-thread system `w1Sys` — acquire, then write —
whose write is located while the lock is held by thread 0. -/
theorem claim1_lock_discipline_witness :
    w1Sys.lock = none ∧
    (∃ sm, Steps w1Sys [(0, Evt.acquire)] sm ∧ sm.lock = some 0) := by
  have st1 : Step w1Sys (0, Evt.acquire) w1Mid := Step.acq rfl rfl
  have st2 : Step w1Mid (0, Evt.write (.flagB 'l')) w1End := Step.wr rfl
  refine ⟨rfl, ?_⟩
  exact claim1_lock_discipline.2 w1Sys
    [(0, Evt.acquire), (0, Evt.write (.flagB 'l'))] w1End rfl
    (fun i p hp => by
      cases i with
      | zero =>
          injection hp with hp
          subst hp
          exact withLockTrace_wellLocked _
      | succ n => exact Option.noConfusion hp)
    (Steps.cons st1 (Steps.cons st2 Steps.nil))
    [(0, Evt.acquire)] [] 0 (.flagB 'l') rfl

/-! ### Claim C9 -/

/-- Claim C9: on every iteration of a transmit worker's send step —
whether the wire write runs to completion or raises partway
(`failAt`) — the trace is exactly: acquire the connection lock, write
some prefix of the frame, then release the lock, clear the wake
event, and append the worker back to the idle pool, in that order.
The lock release and the two cleanup actions happen on the failure
path too (the `with` statement and the `finally` block), before any
later wait. -/
theorem claim9_streamer_cleanup (flag : Char) (exp : ℤ) (size : ℕ)
    (failAt : Option ℕ) :
    ∃ ws, streamerIter flag exp size failAt
        = .lockAcq :: ws.map SEvt.wireWr
            ++ [.lockRel, .clearEvent, .appendPool] ∧
      ws <+: sendFileItems flag exp size := by
  cases failAt with
  | none => exact ⟨sendFileItems flag exp size, rfl, List.prefix_refl _⟩
  | some k => exact ⟨(sendFileItems flag exp size).take k, rfl,
      List.take_prefix k _⟩

/-- Witness for `claim10_frame_default` with the argument `"12"`. -/
theorem claim10_frame_default_witness :
    ('\n' ∉ (['1', '2'] : List Char)) ∧
    pyInt ['1', '2'] = some 12 ∧
    processCmd sampleBFn 1 (Codes.capFrameAdv :: ['1', '2'] ++ ['\n']) sampleState
      = .ok (ctrlFwdFrame 12 (logLine sampleState)) ∧
    processCmd sampleBFn 1 (Codes.capFrameRev :: ['1', '2'] ++ ['\n']) sampleState
      = .ok (ctrlRevFrame 12 (logLine sampleState)) :=
  ⟨by decide, by decide,
    claim10_frame_default.2.1 sampleBFn 1 sampleState ['1', '2'] 12 (by decide)
      (by decide),
    claim10_frame_default.2.2.2 sampleBFn 1 sampleState ['1', '2'] 12 (by decide)
      (by decide)⟩

end DS8
